import Mathlib

/-!
Shallow embedding of the GPUJobSystem job recorder and dependency tracker
(src/src/Job.cpp, src/src/Job.h, src/src/Resources.h, and
JobManager::transitionImageLayout from src/src/JobManager.cpp).

Vulkan handles are modelled by natural-number identifiers, host pointers by
`Option Nat` (`Option.none` is the null pointer), device-side recording by an
explicit list of command records, and C++ exceptions by `Except JobError`.
The deferred host memcpy operations performed by the pre/post execution
transfer flushes are modelled as `MemCpy` records appended to logs in the
job state.  Fence waiting is modelled by passing the outcome of the wait
(success / timeout / failure) as an explicit argument to `await`.
-/

namespace GPUJob

/-! ### Specification-side helpers for the dependency-tracker claims -/

/-- Access flag bits from Resources.h: enum AccessType with None = 0, Read = 1, Write = 2;
AccessTypeFlags is uint8_t. -/
abbrev AccessTypeFlags := Nat

def AccessType.noneFlag : AccessTypeFlags := 0

def AccessType.read : AccessTypeFlags := 1

def AccessType.write : AccessTypeFlags := 2

/-- Job.h enum class Operation with variants None, Transfer, Task. -/
inductive Operation
  | noneOp
  | transfer
  | task
deriving DecidableEq

/-- Error kinds corresponding to the exceptions thrown by the source. -/
inductive JobError
  | illegalState
  | layoutMismatch
  | sizeMismatch
  | unsupportedSync
  | unsupportedResourceType
  | unsupportedLayoutTransition
  | accessCountMismatch
  | unsupportedOperation
  | waitFailure
deriving DecidableEq

/-- Vulkan pipeline-stage bit VK_PIPELINE_STAGE_TOP_OF_PIPE_BIT. -/
def VK_PIPELINE_STAGE_TOP_OF_PIPE_BIT : Nat := 0x00000001

/-- Vulkan pipeline-stage bit VK_PIPELINE_STAGE_COMPUTE_SHADER_BIT. -/
def VK_PIPELINE_STAGE_COMPUTE_SHADER_BIT : Nat := 0x00000800

/-- Vulkan pipeline-stage bit VK_PIPELINE_STAGE_TRANSFER_BIT. -/
def VK_PIPELINE_STAGE_TRANSFER_BIT : Nat := 0x00001000

/-- Vulkan pipeline-stage bit VK_PIPELINE_STAGE_BOTTOM_OF_PIPE_BIT. -/
def VK_PIPELINE_STAGE_BOTTOM_OF_PIPE_BIT : Nat := 0x00002000

/-- Vulkan access bit VK_ACCESS_SHADER_READ_BIT. -/
def VK_ACCESS_SHADER_READ_BIT : Nat := 0x00000020

/-- Vulkan access bit VK_ACCESS_SHADER_WRITE_BIT. -/
def VK_ACCESS_SHADER_WRITE_BIT : Nat := 0x00000040

/-- Vulkan access bit VK_ACCESS_TRANSFER_READ_BIT. -/
def VK_ACCESS_TRANSFER_READ_BIT : Nat := 0x00000800

/-- Vulkan access bit VK_ACCESS_TRANSFER_WRITE_BIT. -/
def VK_ACCESS_TRANSFER_WRITE_BIT : Nat := 0x00001000

/-- VK_WHOLE_SIZE sentinel. -/
def VK_WHOLE_SIZE : Nat := 2 ^ 64 - 1

/-- UINT64_MAX, the default of the size parameters of the sync operations in Job.h. -/
def UINT64_MAX : Nat := 2 ^ 64 - 1

/-- The subset of VkImageLayout values reachable in this code base; all remaining
enum values are collapsed into otherLayout with their numeric code. -/
inductive VkImageLayout
  | undefined
  | general
  | transferSrcOptimal
  | transferDstOptimal
  | presentSrcKHR
  | otherLayout (code : Nat)
deriving DecidableEq

/-- Buffer::Type from Resources.h. -/
inductive BufferType
  | deviceLocal
  | staging
  | uniform
deriving DecidableEq

/-- The Buffer resource from Resources.h.  The VkBuffer handle and the staging
shadow Buffer are identified by numeric ids (the staging shadow is itself a
Buffer with host-visible memory; stagingId names it and is meaningful for
DeviceLocal buffers, which always own one). -/
structure BufferRes where
  id : Nat
  size : Nat
  bufferType : BufferType
  stagingId : Nat
deriving DecidableEq

/-- The Image resource from Resources.h.  Resource size is width * height * channels;
initialLayout is the layout stored in the Image object when it first meets this job
(createImage produces Undefined). -/
structure ImageRes where
  id : Nat
  width : Nat
  height : Nat
  channels : Nat
  stagingId : Nat
  initialLayout : VkImageLayout
deriving DecidableEq

def ImageRes.size (i : ImageRes) : Nat := i.width * i.height * i.channels

/-- A Resource is either a StorageBuffer or a StorageImage (Resources.h). -/
inductive Res
  | buf (b : BufferRes)
  | img (i : ImageRes)
deriving DecidableEq

def Res.id : Res → Nat
  | .buf b => b.id
  | .img i => i.id

/-- ResourceSet from Resources.h: a pre-built descriptor set together with the
resources it references. -/
structure ResourceSetModel where
  descriptorSetId : Nat
  resources : List Res
deriving DecidableEq

/-- The variant std::variant<ResourceSet, std::vector<Resource *>> used as the
value of the pendingBindings map in Job.h. -/
inductive Binding
  | resourceSet (rs : ResourceSetModel)
  | resourceList (rs : List Res)
deriving DecidableEq

def Binding.resources : Binding → List Res
  | .resourceSet rs => rs.resources
  | .resourceList rs => rs

/-- Task from Resources.h: pipeline, pipeline layout and the reflected per-set
per-binding access-flag matrix. -/
structure TaskModel where
  pipelineId : Nat
  pipelineLayoutId : Nat
  resourceAccessFlags : List (List AccessTypeFlags)
deriving DecidableEq

/-- ResourceAccesInfo from Job.h: the last unguarded access to a resource. -/
structure ResourceAccesInfo where
  accessType : AccessTypeFlags
  accessStage : Operation
deriving DecidableEq

/-- VkBufferMemoryBarrier as filled in by Job::makeBufferMemoryBarrier. -/
structure BufferMemoryBarrier where
  srcAccessMask : Nat
  dstAccessMask : Nat
  bufferId : Nat
  offset : Nat
  size : Nat
deriving DecidableEq

/-- VkImageMemoryBarrier as filled in by JobManager::transitionImageLayout. -/
structure ImageMemoryBarrier where
  oldLayout : VkImageLayout
  newLayout : VkImageLayout
  srcAccessMask : Nat
  dstAccessMask : Nat
  imageId : Nat
deriving DecidableEq

/-- Commands recorded into the command buffer. -/
inductive Cmd
  | bindPipeline (pipelineId : Nat)
  | bindDescriptorSets (firstSet : Nat) (count : Nat)
  | pushConsts (size : Nat)
  | dispatch (x y z : Nat)
  | copyBuffer (srcId dstId size : Nat)
  | copyBufferToImage (bufId imgId w h : Nat)
  | copyImageToBuffer (bufId imgId w h : Nat)
  | copyImageToImage (srcId dstId w h : Nat)
  | pipelineBarrier (srcStage dstStage : Nat) (memBarriers : List (Nat × Nat))
      (bufBarriers : List BufferMemoryBarrier) (imgBarriers : List ImageMemoryBarrier)
deriving DecidableEq

/-- TransferInfo from Job.h: a deferred host to host-visible (or back) memcpy.
The host pointer is Option Nat, with Option.none standing for nullptr. -/
structure TransferInfoModel where
  deviceBufferId : Nat
  size : Nat
  host : Option Nat
  destroyAfterTransfer : Bool
deriving DecidableEq

/-- A host memcpy performed by a transfer flush. -/
structure MemCpy where
  bufId : Nat
  size : Nat
  host : Nat
deriving DecidableEq

instance {ε α : Type} [DecidableEq ε] [DecidableEq α] : DecidableEq (Except ε α) := fun x y =>
  match x, y with
  | .ok a, .ok b =>
    if h : a = b then .isTrue (congrArg Except.ok h)
    else .isFalse fun hc => h (Except.ok.inj hc)
  | .error a, .error b =>
    if h : a = b then .isTrue (congrArg Except.error h)
    else .isFalse fun hc => h (Except.error.inj hc)
  | .ok _, .error _ => .isFalse fun hc => Except.noConfusion hc
  | .error _, .ok _ => .isFalse fun hc => Except.noConfusion hc

/-- Lookup in an association list keyed by Nat (std::map find). -/
def mapFind {α : Type} (k : Nat) : List (Nat × α) → Option α
  | [] => Option.none
  | (k', v) :: rest => if k = k' then some v else mapFind k rest

/-- Ordered insert-or-assign in an association list keyed by Nat
(std::map::insert_or_assign). -/
def mapInsertOrAssign {α : Type} (k : Nat) (v : α) : List (Nat × α) → List (Nat × α)
  | [] => [(k, v)]
  | (k', v') :: rest =>
    if k < k' then (k, v) :: (k', v') :: rest
    else if k = k' then (k, v) :: rest
    else (k', v') :: mapInsertOrAssign k v rest

/-- The Job state (fields of class Job in Job.h that the recorder mutates,
plus the recorded command list, the tracked image layouts and the logs of the
host memcpy operations performed by the transfer flushes). -/
structure JobState where
  isRecorded : Bool
  isSubmitted : Bool
  autoDataDependencyManagement : Bool
  pendingBindings : List (Nat × Binding)
  pendingConstants : Option Nat
  preExecutionTransfers : List TransferInfoModel
  postExecutionTransfers : List TransferInfoModel
  unguardedResourceAccess : List (Nat × ResourceAccesInfo)
  imageLayouts : List (Nat × VkImageLayout)
  commands : List Cmd
  hostWrites : List MemCpy
  hostReads : List MemCpy
  submitCount : Nat
deriving DecidableEq

/-- The freshly created job: command buffer begun, no recorded state
(constructor of Job together with the field initializers in Job.h). -/
def initialJob : JobState :=
  { isRecorded := false
    isSubmitted := false
    autoDataDependencyManagement := true
    pendingBindings := []
    pendingConstants := Option.none
    preExecutionTransfers := []
    postExecutionTransfers := []
    unguardedResourceAccess := []
    imageLayouts := []
    commands := []
    hostWrites := []
    hostReads := []
    submitCount := 0 }

def recordCmd (s : JobState) (c : Cmd) : JobState :=
  { s with commands := s.commands ++ [c] }

/-- Job::setAutoDataDependencyManagement. -/
def setAutoDataDependencyManagement (s : JobState) (value : Bool) : JobState :=
  { s with autoDataDependencyManagement := value }

/-- Job::mapStageAndAccessMask.  Maps the recorded operation stage and the
access-type flags to (VkPipelineStageFlags, VkAccessFlags); the default case
of the switch throws std::runtime_error. -/
def mapStageAndAccessMask (accessStage : Operation) (accessType : AccessTypeFlags) :
    Except JobError (Nat × Nat) :=
  match accessStage with
  | .task =>
    let a1 := if accessType &&& AccessType.read ≠ 0 then VK_ACCESS_SHADER_READ_BIT else 0
    let a2 := if accessType &&& AccessType.write ≠ 0 then VK_ACCESS_SHADER_WRITE_BIT else 0
    .ok (VK_PIPELINE_STAGE_COMPUTE_SHADER_BIT, a1 ||| a2)
  | .transfer =>
    let a1 := if accessType &&& AccessType.read ≠ 0 then VK_ACCESS_TRANSFER_READ_BIT else 0
    let a2 := if accessType &&& AccessType.write ≠ 0 then VK_ACCESS_TRANSFER_WRITE_BIT else 0
    .ok (VK_PIPELINE_STAGE_TRANSFER_BIT, a1 ||| a2)
  | .noneOp => .error .unsupportedOperation

/-- Job::mapStage. -/
def mapStage : Operation → Except JobError Nat
  | .task => .ok VK_PIPELINE_STAGE_COMPUTE_SHADER_BIT
  | .transfer => .ok VK_PIPELINE_STAGE_TRANSFER_BIT
  | .noneOp => .error .unsupportedOperation

/-- Job::makeBufferMemoryBarrier: whole-buffer barrier at offset 0. -/
def makeBufferMemoryBarrier (buffer : BufferRes) (srcAccessMask dstAccessMask : Nat) :
    BufferMemoryBarrier :=
  { srcAccessMask := srcAccessMask
    dstAccessMask := dstAccessMask
    bufferId := buffer.id
    offset := 0
    size := VK_WHOLE_SIZE }

/-- One step of building the uniqueResources map of Job::checkDataDependency:
find the resource in the (ordered) map; if present, OR the access flags into
the stored entry, else insert. -/
def uniqueInsert (r : Res) (f : AccessTypeFlags) :
    List (Nat × (Res × AccessTypeFlags)) → List (Nat × (Res × AccessTypeFlags))
  | [] => [(r.id, (r, f))]
  | (k, rf) :: rest =>
    if r.id < k then (r.id, (r, f)) :: (k, rf) :: rest
    else if r.id = k then (k, (rf.1, rf.2 ||| f)) :: rest
    else (k, rf) :: uniqueInsert r f rest

/-- The uniqueResources map of Job::checkDataDependency: accumulate access
types for every unique resource, walking the zipped input left to right. -/
def buildUniqueResources (l : List (Res × AccessTypeFlags)) :
    List (Nat × (Res × AccessTypeFlags)) :=
  l.foldl (fun m rf => uniqueInsert rf.1 rf.2 m) []

/-- The body of the main loop of Job::checkDataDependency, iterated over the
uniqueResources entries: decide and build the per-buffer barriers for the
compute-shader and transfer source-stage buckets and update the
unguardedResourceAccess map.  The two continue statements skip the
insert_or_assign at the end of the loop body. -/
def depLoop (accessStage : Operation) :
    List (Res × AccessTypeFlags) → List (Nat × ResourceAccesInfo) →
    Except JobError
      (List BufferMemoryBarrier × List BufferMemoryBarrier × List (Nat × ResourceAccesInfo))
  | [], ung => .ok ([], [], ung)
  | (resource, accessTypeFlags) :: rest, ung =>
    match mapFind resource.id ung with
    | some info =>
      if info.accessType = AccessType.read ∧ accessTypeFlags = AccessType.read then
        depLoop accessStage rest ung
      else if info.accessType = AccessType.noneFlag ∨ accessTypeFlags = AccessType.noneFlag then
        depLoop accessStage rest ung
      else
        match resource with
        | .buf b =>
          match mapStageAndAccessMask info.accessStage info.accessType with
          | .error e => .error e
          | .ok src =>
            match mapStageAndAccessMask accessStage accessTypeFlags with
            | .error e => .error e
            | .ok dst =>
              let barrier := makeBufferMemoryBarrier b src.2 dst.2
              match depLoop accessStage rest (mapInsertOrAssign resource.id
                  ⟨accessTypeFlags, accessStage⟩ ung) with
              | .error e => .error e
              | .ok res =>
                if info.accessStage = Operation.task then
                  .ok (barrier :: res.1, res.2.1, res.2.2)
                else if info.accessStage = Operation.transfer then
                  .ok (res.1, barrier :: res.2.1, res.2.2)
                else
                  .ok res
        | .img _ => .error .unsupportedResourceType
    | Option.none =>
      depLoop accessStage rest
        (mapInsertOrAssign resource.id ⟨accessTypeFlags, accessStage⟩ ung)

/-- Job::checkDataDependency (the overload taking a vector of access types).
Emits at most one pipeline-barrier command per source-stage bucket, with the
destination stage mapped from the new operation, and installs the updated
unguarded-access map. -/
def checkDataDependency (s : JobState) (requiredResources : List Res)
    (accessStage : Operation) (accessTypes : List AccessTypeFlags) :
    Except JobError JobState :=
  if s.autoDataDependencyManagement = false then .ok s
  else if requiredResources.length ≠ accessTypes.length then .error .accessCountMismatch
  else
    match depLoop accessStage
        ((buildUniqueResources (requiredResources.zip accessTypes)).map (·.2))
        s.unguardedResourceAccess with
    | .error e => .error e
    | .ok res =>
      match mapStage accessStage with
      | .error e => .error e
      | .ok dstStage =>
        let shaderCmds :=
          if res.1 ≠ [] then
            [Cmd.pipelineBarrier VK_PIPELINE_STAGE_COMPUTE_SHADER_BIT dstStage [] res.1 []]
          else []
        let transferCmds :=
          if res.2.1 ≠ [] then
            [Cmd.pipelineBarrier VK_PIPELINE_STAGE_TRANSFER_BIT dstStage [] res.2.1 []]
          else []
        .ok { s with
              unguardedResourceAccess := res.2.2
              commands := s.commands ++ shaderCmds ++ transferCmds }

/-- Job::checkDataDependency (the overload taking one access type): replicate
the flag for every resource. -/
def checkDataDependencySingle (s : JobState) (requiredResources : List Res)
    (accessStage : Operation) (accessType : AccessTypeFlags) :
    Except JobError JobState :=
  checkDataDependency s requiredResources accessStage
    (List.replicate requiredResources.length accessType)

/-- The loop of Job::checkDataDependencyInPendingBindings: walk the pending
bindings in ascending set order, validate each against the reflected
access-flag matrix, and gather the flattened resource and flag lists.  An
out-of-range set index or more resources than reflected bindings throws
(LayoutMismatch). -/
def gatherPendingAccess (accessFlags : List (List AccessTypeFlags)) :
    List (Nat × Binding) → Except JobError (List Res × List AccessTypeFlags)
  | [] => .ok ([], [])
  | (pos, b) :: rest =>
    let rs := b.resources
    if pos ≥ accessFlags.length ∨ rs.length > (accessFlags.getD pos []).length then
      .error .layoutMismatch
    else
      match gatherPendingAccess accessFlags rest with
      | .error e => .error e
      | .ok tail =>
        .ok (rs ++ tail.1, (accessFlags.getD pos []).take rs.length ++ tail.2)

/-- Job::checkDataDependencyInPendingBindings. -/
def checkDataDependencyInPendingBindings (s : JobState) (task : TaskModel) :
    Except JobError JobState :=
  if s.autoDataDependencyManagement = false then .ok s
  else
    match gatherPendingAccess task.resourceAccessFlags s.pendingBindings with
    | .error e => .error e
    | .ok gathered => checkDataDependency s gathered.1 Operation.task gathered.2

/-- The loop of Job::bindPendingResources: walk the pending-bindings map in
ascending set order keeping the current run start (currentFirstPos) and the
accumulated descriptor-set count; flush a bindDescriptorSets call whenever the
next set index is not adjacent, and flush the final non-empty run. -/
def bindPendingRun : List (Nat × Binding) → Nat → Nat → List Cmd
  | [], currentFirstPos, count =>
    if count > 0 then [Cmd.bindDescriptorSets currentFirstPos count] else []
  | (pos, _) :: rest, currentFirstPos, count =>
    if pos ≠ currentFirstPos + count then
      Cmd.bindDescriptorSets currentFirstPos count :: bindPendingRun rest pos 1
    else
      bindPendingRun rest currentFirstPos (count + 1)

/-- Job::bindPendingResources: emit the coalesced bindDescriptorSets commands,
emit the pending push-constants command if present, then clear the pending
bindings and pending constants. -/
def bindPendingResources (s : JobState) : JobState :=
  let firstPos := match s.pendingBindings with
    | [] => 0
    | (k, _) :: _ => k
  let bindCmds := bindPendingRun s.pendingBindings firstPos 0
  let pcCmds := match s.pendingConstants with
    | some sz => [Cmd.pushConsts sz]
    | Option.none => []
  { s with
    commands := s.commands ++ bindCmds ++ pcCmds
    pendingBindings := []
    pendingConstants := Option.none }

/-- Job::addTask(task, groupX, groupY, groupZ): dependency check over the
pending bindings, bind the pipeline, bind the pending resources, dispatch. -/
def addTask (s : JobState) (task : TaskModel) (groupX groupY groupZ : Nat) :
    Except JobError JobState :=
  match checkDataDependencyInPendingBindings s task with
  | .error e => .error e
  | .ok s =>
    let s := recordCmd s (Cmd.bindPipeline task.pipelineId)
    let s := bindPendingResources s
    .ok (recordCmd s (Cmd.dispatch groupX groupY groupZ))

/-- Job::useResources: place a pending binding at the given set index
(insert_or_assign, last writer wins). -/
def useResources (s : JobState) (index : Nat) (binding : Binding) : JobState :=
  { s with pendingBindings := mapInsertOrAssign index binding s.pendingBindings }

/-- Job::pushConstants: store a copy of the blob (modelled by its size); a new
call replaces any prior pending blob. -/
def pushConstants (s : JobState) (size : Nat) : JobState :=
  { s with pendingConstants := some size }

/-- JobManager::transitionImageLayout: derive (srcAccessMask, sourceStage)
from the old layout and (dstAccessMask, destinationStage) from the new layout;
the default switch cases throw std::invalid_argument. -/
def managerTransitionImageLayout (imageId : Nat) (oldLayout newLayout : VkImageLayout) :
    Except JobError (Nat × Nat × ImageMemoryBarrier) :=
  let srcInfo : Except JobError (Nat × Nat) := match oldLayout with
    | .undefined => .ok ((0 : Nat), VK_PIPELINE_STAGE_TOP_OF_PIPE_BIT)
    | .general => .ok (VK_ACCESS_SHADER_WRITE_BIT, VK_PIPELINE_STAGE_COMPUTE_SHADER_BIT)
    | .transferSrcOptimal => .ok (VK_ACCESS_TRANSFER_WRITE_BIT, VK_PIPELINE_STAGE_TRANSFER_BIT)
    | .transferDstOptimal => .ok (VK_ACCESS_TRANSFER_WRITE_BIT, VK_PIPELINE_STAGE_TRANSFER_BIT)
    | _ => .error .unsupportedLayoutTransition
  let dstInfo : Except JobError (Nat × Nat) := match newLayout with
    | .general => .ok (VK_ACCESS_SHADER_READ_BIT ||| VK_ACCESS_SHADER_WRITE_BIT,
        VK_PIPELINE_STAGE_COMPUTE_SHADER_BIT)
    | .transferSrcOptimal => .ok (VK_ACCESS_TRANSFER_READ_BIT, VK_PIPELINE_STAGE_TRANSFER_BIT)
    | .transferDstOptimal => .ok (VK_ACCESS_TRANSFER_WRITE_BIT, VK_PIPELINE_STAGE_TRANSFER_BIT)
    | .presentSrcKHR => .ok ((0 : Nat), VK_PIPELINE_STAGE_BOTTOM_OF_PIPE_BIT)
    | _ => .error .unsupportedLayoutTransition
  match srcInfo with
  | .error e => .error e
  | .ok src =>
    match dstInfo with
    | .error e => .error e
    | .ok dst =>
      .ok (src.2, dst.2,
        { oldLayout := oldLayout
          newLayout := newLayout
          srcAccessMask := src.1
          dstAccessMask := dst.1
          imageId := imageId })

/-- The currently tracked layout of an image as this job sees it. -/
def imageLayoutOf (s : JobState) (image : ImageRes) : VkImageLayout :=
  (mapFind image.id s.imageLayouts).getD image.initialLayout

/-- Job::transitionImageLayout: no-op when the tracked layout already equals
the requested one, otherwise record the image-memory barrier emitted by
JobManager::transitionImageLayout and update the tracked layout. -/
def transitionImageLayout (s : JobState) (image : ImageRes) (newLayout : VkImageLayout) :
    Except JobError JobState :=
  if imageLayoutOf s image = newLayout then .ok s
  else
    match managerTransitionImageLayout image.id (imageLayoutOf s image) newLayout with
    | .error e => .error e
    | .ok t =>
      .ok { s with
            commands := s.commands ++ [Cmd.pipelineBarrier t.1 t.2.1 [] [] [t.2.2]]
            imageLayouts := mapInsertOrAssign image.id newLayout s.imageLayouts }

/-- Job::syncResourceToDevice. -/
def syncResourceToDevice (s : JobState) (resource : Res) (data : Option Nat) (size : Nat) :
    Except JobError JobState :=
  match resource with
  | .buf buffer =>
    let size := min size buffer.size
    match buffer.bufferType with
    | .deviceLocal =>
      let s := { s with preExecutionTransfers := s.preExecutionTransfers ++
        [{ deviceBufferId := buffer.stagingId, size := size, host := data,
           destroyAfterTransfer := false }] }
      match checkDataDependencySingle s [resource] Operation.transfer AccessType.write with
      | .error e => .error e
      | .ok s => .ok (recordCmd s (Cmd.copyBuffer buffer.stagingId buffer.id size))
    | _ =>
      .ok { s with preExecutionTransfers := s.preExecutionTransfers ++
        [{ deviceBufferId := buffer.id, size := size, host := data,
           destroyAfterTransfer := false }] }
  | .img image =>
    match data with
    | Option.none => transitionImageLayout s image VkImageLayout.general
    | some _ =>
      if size ≠ image.size then .error .sizeMismatch
      else
        let s := { s with preExecutionTransfers := s.preExecutionTransfers ++
          [{ deviceBufferId := image.stagingId, size := size, host := data,
             destroyAfterTransfer := false }] }
        match transitionImageLayout s image VkImageLayout.transferDstOptimal with
        | .error e => .error e
        | .ok s =>
          let s := recordCmd s (Cmd.copyBufferToImage image.stagingId image.id
            image.width image.height)
          transitionImageLayout s image VkImageLayout.general

/-- Job::syncResourceToDevice with the size parameter left at its Job.h
default (UINT64_MAX). -/
def syncResourceToDeviceDefault (s : JobState) (resource : Res) (data : Option Nat) :
    Except JobError JobState :=
  syncResourceToDevice s resource data UINT64_MAX

/-- Job::syncResourceToHost. -/
def syncResourceToHost (s : JobState) (resource : Res) (data : Option Nat) (size : Nat) :
    Except JobError JobState :=
  match resource with
  | .buf buffer =>
    if buffer.bufferType = BufferType.deviceLocal then
      match checkDataDependencySingle s [resource] Operation.transfer AccessType.read with
      | .error e => .error e
      | .ok s =>
        let size := min size buffer.size
        let s := recordCmd s (Cmd.copyBuffer buffer.id buffer.stagingId size)
        .ok { s with postExecutionTransfers := s.postExecutionTransfers ++
          [{ deviceBufferId := buffer.stagingId, size := size, host := data,
             destroyAfterTransfer := false }] }
    else
      .ok { s with postExecutionTransfers := s.postExecutionTransfers ++
        [{ deviceBufferId := buffer.id, size := size, host := data,
           destroyAfterTransfer := false }] }
  | .img image =>
    if size < image.size then .error .sizeMismatch
    else
      match transitionImageLayout s image VkImageLayout.transferSrcOptimal with
      | .error e => .error e
      | .ok s =>
        let s := recordCmd s (Cmd.copyImageToBuffer image.stagingId image.id
          image.width image.height)
        match transitionImageLayout s image VkImageLayout.general with
        | .error e => .error e
        | .ok s =>
          .ok { s with postExecutionTransfers := s.postExecutionTransfers ++
            [{ deviceBufferId := image.stagingId, size := image.size, host := data,
               destroyAfterTransfer := false }] }

/-- Job::syncResourceToHost with the size parameter left at its Job.h default
(UINT64_MAX). -/
def syncResourceToHostDefault (s : JobState) (resource : Res) (data : Option Nat) :
    Except JobError JobState :=
  syncResourceToHost s resource data UINT64_MAX

/-- Job::syncResources: GPU-side resource-to-resource copy. -/
def syncResources (s : JobState) (src dst : Res) : Except JobError JobState :=
  match src, dst with
  | .img srcImg, .img dstImg =>
    match transitionImageLayout s srcImg VkImageLayout.transferSrcOptimal with
    | .error e => .error e
    | .ok s =>
      match transitionImageLayout s dstImg VkImageLayout.transferDstOptimal with
      | .error e => .error e
      | .ok s =>
        let s := recordCmd s (Cmd.copyImageToImage srcImg.id dstImg.id
          (min srcImg.width dstImg.width) (min srcImg.height dstImg.height))
        match transitionImageLayout s srcImg VkImageLayout.general with
        | .error e => .error e
        | .ok s => transitionImageLayout s dstImg VkImageLayout.general
  | .buf srcBuffer, .buf dstBuffer =>
    match checkDataDependency s [src, dst] Operation.transfer
        [AccessType.read, AccessType.write] with
    | .error e => .error e
    | .ok s =>
      .ok (recordCmd s (Cmd.copyBuffer srcBuffer.id dstBuffer.id
        (min srcBuffer.size dstBuffer.size)))
  | _, _ => .error .unsupportedSync

/-- Job::addMemoryBarrier: record a global memory barrier. -/
def addMemoryBarrier (s : JobState) (srcStageMask srcAccessMask dstStageMask dstAccessMask : Nat) :
    JobState :=
  recordCmd s (Cmd.pipelineBarrier srcStageMask dstStageMask
    [(srcAccessMask, dstAccessMask)] [] [])

/-- Job::addExecutionBarrier. -/
def addExecutionBarrier (s : JobState) (srcStageMask dstStageMask : Nat) : JobState :=
  recordCmd s (Cmd.pipelineBarrier srcStageMask dstStageMask [] [] [])

/-- Job::waitForTasksFinish: drop the whole unguarded-access map and emit a
compute-to-compute memory barrier. -/
def waitForTasksFinish (s : JobState) : JobState :=
  addMemoryBarrier { s with unguardedResourceAccess := [] }
    VK_PIPELINE_STAGE_COMPUTE_SHADER_BIT VK_ACCESS_SHADER_WRITE_BIT
    VK_PIPELINE_STAGE_COMPUTE_SHADER_BIT VK_ACCESS_SHADER_READ_BIT

/-- Job::waitAfterTransfers. -/
def waitAfterTransfers (s : JobState) : JobState :=
  addMemoryBarrier s VK_PIPELINE_STAGE_TRANSFER_BIT VK_ACCESS_TRANSFER_WRITE_BIT
    VK_PIPELINE_STAGE_COMPUTE_SHADER_BIT
    (VK_ACCESS_SHADER_READ_BIT ||| VK_ACCESS_SHADER_WRITE_BIT)

/-- Job::waitBeforeTransfers. -/
def waitBeforeTransfers (s : JobState) : JobState :=
  addMemoryBarrier s VK_PIPELINE_STAGE_COMPUTE_SHADER_BIT VK_ACCESS_SHADER_WRITE_BIT
    VK_PIPELINE_STAGE_TRANSFER_BIT VK_ACCESS_TRANSFER_READ_BIT

/-- The shared loop shape of Job::completePreExecutionTransfers and
Job::completePostExecutionTransfers: perform the host memcpy of every entry
whose host pointer is not null, and erase exactly the entries whose
destroyAfterTransfer flag is set. -/
def runTransfers : List TransferInfoModel → List MemCpy × List TransferInfoModel
  | [] => ([], [])
  | t :: rest =>
    let tail := runTransfers rest
    (match t.host with
      | some p => { bufId := t.deviceBufferId, size := t.size, host := p } :: tail.1
      | Option.none => tail.1,
     if t.destroyAfterTransfer then tail.2 else t :: tail.2)

/-- Job::completePreExecutionTransfers: flush the deferred host to
host-visible-memory copies. -/
def completePreExecutionTransfers (s : JobState) : JobState :=
  let r := runTransfers s.preExecutionTransfers
  { s with preExecutionTransfers := r.2, hostWrites := s.hostWrites ++ r.1 }

/-- Job::completePostExecutionTransfers: flush the deferred
host-visible-memory to host copies. -/
def completePostExecutionTransfers (s : JobState) : JobState :=
  let r := runTransfers s.postExecutionTransfers
  { s with postExecutionTransfers := r.2, hostReads := s.hostReads ++ r.1 }

/-- Job::submit (success path of the device calls): close the command buffer
on the first submit, fail IllegalState when already submitted and not yet
awaited, flush the pre-execution transfers and enqueue on the compute queue.
Semaphore plumbing is outside the modelled claims. -/
def submit (s : JobState) : Except JobError JobState :=
  let s := if s.isRecorded = false then { s with isRecorded := true } else s
  if s.isSubmitted then .error .illegalState
  else
    let s := completePreExecutionTransfers s
    .ok { s with isSubmitted := true, submitCount := s.submitCount + 1 }

/-- Outcome of vkWaitForFences, passed to await as an explicit environment
choice. -/
inductive FenceWaitResult
  | success
  | timeout
  | failed
deriving DecidableEq

/-- Job::await: on fence success flush the post-execution transfers and mark
not submitted, returning true; on timeout return false with the state
untouched; on any other wait result throw. -/
def await (s : JobState) (res : FenceWaitResult) : Except JobError (JobState × Bool) :=
  match res with
  | .failed => .error .waitFailure
  | .timeout => .ok (s, false)
  | .success =>
    .ok ({ completePostExecutionTransfers s with isSubmitted := false }, true)

/-- The stage half of the stage/access mapping table (total restatement for
use in theorem statements; junk value 0 for the unreachable None stage). -/
def stageSpec : Operation → Nat
  | .task => VK_PIPELINE_STAGE_COMPUTE_SHADER_BIT
  | .transfer => VK_PIPELINE_STAGE_TRANSFER_BIT
  | .noneOp => 0

/-- The access-mask half of the stage/access mapping table (total restatement
for use in theorem statements). -/
def accessMaskSpec : Operation → AccessTypeFlags → Nat
  | .task, accessType =>
    (if accessType &&& AccessType.read ≠ 0 then VK_ACCESS_SHADER_READ_BIT else 0) |||
    (if accessType &&& AccessType.write ≠ 0 then VK_ACCESS_SHADER_WRITE_BIT else 0)
  | .transfer, accessType =>
    (if accessType &&& AccessType.read ≠ 0 then VK_ACCESS_TRANSFER_READ_BIT else 0) |||
    (if accessType &&& AccessType.write ≠ 0 then VK_ACCESS_TRANSFER_WRITE_BIT else 0)
  | .noneOp, _ => 0

/-- The skip condition of the tracker: no barrier when either side is None or
both sides are exactly Read. -/
def skipsBarrier (recorded requested : AccessTypeFlags) : Bool :=
  (decide (recorded = AccessType.read) && decide (requested = AccessType.read)) ||
  decide (recorded = AccessType.noneFlag) || decide (requested = AccessType.noneFlag)

/-- The per-bucket barrier list the tracker must emit for one operation,
stated declaratively: one whole-buffer barrier for every participating unique
resource whose recorded unguarded access is in the given source-stage bucket
and does not satisfy the skip condition, with masks mapped from the recorded
and the requested (stage, access) pairs. -/
def bucketBarriers (bucket newStage : Operation) (ung : List (Nat × ResourceAccesInfo))
    (l : List (Res × AccessTypeFlags)) : List BufferMemoryBarrier :=
  l.filterMap fun rf =>
    match mapFind rf.1.id ung, rf.1 with
    | some info, .buf b =>
      if skipsBarrier info.accessType rf.2 = false ∧ info.accessStage = bucket then
        some (makeBufferMemoryBarrier b (accessMaskSpec info.accessStage info.accessType)
          (accessMaskSpec newStage rf.2))
      else Option.none
    | _, _ => Option.none

/-- The OR of all requested access flags recorded for resource id k while the
uniqueResources map is built, starting from acc. -/
def accumulateFlags (k : Nat) (acc : AccessTypeFlags) :
    List (Res × AccessTypeFlags) → AccessTypeFlags
  | [] => acc
  | (r, f) :: rest => accumulateFlags k (if r.id = k then acc ||| f else acc) rest

/-- The first resource with id k in the operation list (the pointer stored as
the key of the uniqueResources map). -/
def firstResWith (k : Nat) : List (Res × AccessTypeFlags) → Option Res
  | [] => Option.none
  | (r, _) :: rest => if r.id = k then some r else firstResWith k rest

/-- buildUniqueResources restarted from an arbitrary accumulator map. -/
def buildUniqueFrom (m : List (Nat × (Res × AccessTypeFlags)))
    (l : List (Res × AccessTypeFlags)) : List (Nat × (Res × AccessTypeFlags)) :=
  l.foldl (fun m rf => uniqueInsert rf.1 rf.2 m) m

/-- What one entry of the processed list does to the unguarded-access map:
the entry is left unchanged on the skip paths (the continue statements skip
the insert_or_assign), and overwritten with the requested access and the new
stage otherwise. -/
def ungAfterEntry (σ : Operation) (prev : Option ResourceAccesInfo) (req : AccessTypeFlags) :
    Option ResourceAccesInfo :=
  match prev with
  | some info =>
    if skipsBarrier info.accessType req then some info
    else some ⟨req, σ⟩
  | Option.none => some ⟨req, σ⟩

/-- Concrete device-local buffer used by the claim witnesses. -/
def witBuf : BufferRes := { id := 1, size := 20, bufferType := .deviceLocal, stagingId := 101 }

/-- Job state with a recorded unguarded transfer write to resource 1. -/
def witStateWrite : JobState :=
  { initialJob with unguardedResourceAccess :=
      [(1, { accessType := AccessType.write, accessStage := Operation.transfer })] }

/-- Job state with a recorded unguarded transfer read of resource 1. -/
def witStateRead : JobState :=
  { initialJob with unguardedResourceAccess :=
      [(1, { accessType := AccessType.read, accessStage := Operation.transfer })] }

/-- The result of the tracker pass used by the C1/C2 witnesses. -/
def witResultWrite : JobState :=
  match checkDataDependency witStateWrite [Res.buf witBuf] Operation.task [AccessType.read] with
  | .ok s => s
  | .error _ => initialJob

/-- The host memcpy operations a transfer flush performs: one copy per entry
with a non-null host pointer, in order. -/
def memCpysOf (l : List TransferInfoModel) : List MemCpy :=
  l.filterMap fun t => t.host.map fun p =>
    { bufId := t.deviceBufferId, size := t.size, host := p }

/-- A concrete submitted job with one pending download, used by witnesses. -/
def witSubmittedJob : JobState :=
  { initialJob with
    isSubmitted := true
    isRecorded := true
    postExecutionTransfers :=
      [{ deviceBufferId := 7, size := 4, host := some 55,
         destroyAfterTransfer := false }] }

/-- A concrete staging buffer used by claim witnesses. -/
def witStagingBuf : BufferRes := { id := 2, size := 8, bufferType := .staging, stagingId := 0 }

/-- A concrete 2x2 RGBA image (size 16) used by claim witnesses. -/
def witImg : ImageRes :=
  { id := 3, width := 2, height := 2, channels := 4, stagingId := 103,
    initialLayout := VkImageLayout.general }

/-- A concrete one-set one-binding read-only task used by claim witnesses. -/
def witTask : TaskModel :=
  { pipelineId := 7, pipelineLayoutId := 8, resourceAccessFlags := [[AccessType.read]] }

/-- A pending binding violating the reflected layout: out-of-range set index
or more supplied resources than reflected bindings. -/
def badBinding (af : List (List AccessTypeFlags)) (pb : Nat × Binding) : Prop :=
  pb.1 ≥ af.length ∨ (Binding.resources pb.2).length > (af.getD pb.1 []).length

instance (af : List (List AccessTypeFlags)) (pb : Nat × Binding) :
    Decidable (badBinding af pb) := by
  unfold badBinding
  infer_instance

/-- The over-short pending binding of the C5 counterexample: one resource
supplied for a set whose reflected layout has two bindings. -/
def overshortState : JobState :=
  { initialJob with pendingBindings := [(0, Binding.resourceList [Res.buf witBuf])] }

/-- A task whose single set has two read-only bindings. -/
def overshortTask : TaskModel :=
  { pipelineId := 7, pipelineLayoutId := 8,
    resourceAccessFlags := [[AccessType.read, AccessType.read]] }

/-- The over-long pending binding used by the C5 witness. -/
def overlongState : JobState :=
  { initialJob with pendingBindings :=
      [(0, Binding.resourceList [Res.buf witBuf, Res.buf witStagingBuf])] }

/-- Test for a bindDescriptorSets command. -/
def Cmd.isBindDS : Cmd → Bool := fun c =>
  match c with
  | .bindDescriptorSets _ _ => true
  | _ => false

/-- Test for a pipeline-barrier command. -/
def Cmd.isPipeBarrier : Cmd → Bool := fun c =>
  match c with
  | .pipelineBarrier _ _ _ _ _ => true
  | _ => false

/-- Specification-side run coalescing: group a key list into maximal runs of
consecutive indices, each reported as (first, count), mirroring the walk of
the pending-bindings map. -/
def coalesceGo : List Nat → Nat → Nat → List (Nat × Nat)
  | [], first, cnt => [(first, cnt)]
  | k :: rest, first, cnt =>
    if k ≠ first + cnt then (first, cnt) :: coalesceGo rest k 1
    else coalesceGo rest first (cnt + 1)

/-- The runs of consecutive set indices of a key list. -/
def coalesceRuns : List Nat → List (Nat × Nat)
  | [] => []
  | k :: rest => coalesceGo rest k 1

/-- Pending bindings at set indices 0 and 2 (not adjacent), used by the C6
witness; dependency management off so the dispatch records unconditionally. -/
def coalesceState : JobState :=
  { initialJob with
    autoDataDependencyManagement := false
    pendingBindings :=
      [(0, Binding.resourceList [Res.buf witBuf]),
       (2, Binding.resourceList [Res.buf witStagingBuf])] }

/-- The job state recorded by the C6 witness dispatch. -/
def coalesceResult : JobState :=
  match addTask coalesceState witTask 1 1 1 with
  | .ok s => s
  | .error _ => initialJob

/-- The old-layout half of the transition table from the claim:
(srcAccessMask, srcStage) per allowed old layout, none when unsupported. -/
def layoutSrcSpec : VkImageLayout → Option (Nat × Nat)
  | .undefined => some (0, VK_PIPELINE_STAGE_TOP_OF_PIPE_BIT)
  | .general => some (VK_ACCESS_SHADER_WRITE_BIT, VK_PIPELINE_STAGE_COMPUTE_SHADER_BIT)
  | .transferSrcOptimal => some (VK_ACCESS_TRANSFER_WRITE_BIT, VK_PIPELINE_STAGE_TRANSFER_BIT)
  | .transferDstOptimal => some (VK_ACCESS_TRANSFER_WRITE_BIT, VK_PIPELINE_STAGE_TRANSFER_BIT)
  | _ => Option.none

/-- The new-layout half of the transition table, amended with the
PresentSrcKHR row the code also accepts: (dstAccessMask, dstStage) per
allowed new layout, none when unsupported. -/
def layoutDstSpec : VkImageLayout → Option (Nat × Nat)
  | .general => some (VK_ACCESS_SHADER_READ_BIT ||| VK_ACCESS_SHADER_WRITE_BIT,
      VK_PIPELINE_STAGE_COMPUTE_SHADER_BIT)
  | .transferSrcOptimal => some (VK_ACCESS_TRANSFER_READ_BIT, VK_PIPELINE_STAGE_TRANSFER_BIT)
  | .transferDstOptimal => some (VK_ACCESS_TRANSFER_WRITE_BIT, VK_PIPELINE_STAGE_TRANSFER_BIT)
  | .presentSrcKHR => some (0, VK_PIPELINE_STAGE_BOTTOM_OF_PIPE_BIT)
  | _ => Option.none

/-- A job that has tracked the witness image in layout General. -/
def presentState : JobState :=
  { initialJob with imageLayouts := [(3, VkImageLayout.general)] }

/-- Test for a command carrying per-buffer memory barriers (the commands the
dependency tracker emits). -/
def Cmd.hasBufferBarriers : Cmd → Bool := fun c =>
  match c with
  | .pipelineBarrier _ _ _ bufBarriers _ => !bufBarriers.isEmpty
  | _ => false

/-- An operation touched neither the unguarded-access map nor emitted any
buffer-memory barrier command. -/
def noTrackerEffect (s s' : JobState) : Prop :=
  s'.unguardedResourceAccess = s.unguardedResourceAccess ∧
  ∃ newCmds, s'.commands = s.commands ++ newCmds ∧
    ∀ c ∈ newCmds, Cmd.hasBufferBarriers c = false

/-- Mismatched bindings with auto-dependency off, used by the C10 witness. -/
def autoOffState : JobState :=
  { initialJob with
    autoDataDependencyManagement := false
    pendingBindings :=
      [(0, Binding.resourceList [Res.buf witBuf, Res.buf witStagingBuf])] }

theorem mapFind_insertOrAssign {α : Type} (k j : Nat) (v : α) (m : List (Nat × α)) :
    mapFind j (mapInsertOrAssign k v m) = if j = k then some v else mapFind j m := by
  induction m with
  | nil =>
    simp only [mapInsertOrAssign, mapFind]
  | cons hd tl ih =>
    obtain ⟨k', v'⟩ := hd
    simp only [mapInsertOrAssign]
    by_cases hlt : k < k'
    · simp only [if_pos hlt, mapFind]
    · simp only [if_neg hlt]
      by_cases heq : k = k'
      · subst heq
        simp only [if_pos rfl, mapFind]
        by_cases hjk : j = k
        · simp [hjk]
        · simp [hjk]
      · simp only [if_neg heq, mapFind, ih]
        by_cases hjk : j = k
        · by_cases hjk' : j = k'
          · exact absurd (hjk.symm.trans hjk') heq
          · simp only [hjk, hjk', if_true, if_pos rfl, if_neg heq]
        · by_cases hjk' : j = k'
          · have hkk : ¬k' = k := fun h => heq h.symm
            simp only [hjk, hjk', if_true, if_pos rfl, if_neg hkk, if_false]
          · simp [hjk, hjk']

theorem mapStageAndAccessMask_ok_iff (σ : Operation) (f : AccessTypeFlags) (p : Nat × Nat) :
    mapStageAndAccessMask σ f = .ok p ↔
      σ ≠ Operation.noneOp ∧ p = (stageSpec σ, accessMaskSpec σ f) := by
  cases σ <;> cases p <;>
    simp [mapStageAndAccessMask, stageSpec, accessMaskSpec, and_comm, eq_comm]

theorem mapStage_ok_iff (σ : Operation) (n : Nat) :
    mapStage σ = .ok n ↔ σ ≠ Operation.noneOp ∧ n = stageSpec σ := by
  cases σ <;> simp [mapStage, stageSpec, eq_comm]

theorem bucketBarriers_congr (bucket newStage : Operation)
    (ung₁ ung₂ : List (Nat × ResourceAccesInfo)) (l : List (Res × AccessTypeFlags))
    (h : ∀ rf ∈ l, mapFind rf.1.id ung₁ = mapFind rf.1.id ung₂) :
    bucketBarriers bucket newStage ung₁ l = bucketBarriers bucket newStage ung₂ l := by
  induction l with
  | nil => rfl
  | cons hd tl ih =>
    simp only [bucketBarriers, List.filterMap_cons] at *
    rw [h hd (List.mem_cons_self hd tl)]
    have := ih fun rf hrf => h rf (List.mem_cons_of_mem hd hrf)
    cases hfind : mapFind hd.1.id ung₂ <;> cases hhd : hd.1 <;> simp_all

theorem buildUniqueResources_eq_from (l : List (Res × AccessTypeFlags)) :
    buildUniqueResources l = buildUniqueFrom [] l := rfl

theorem mapFind_eq_none {α : Type} (k : Nat) (m : List (Nat × α))
    (h : k ∉ m.map (·.1)) : mapFind k m = Option.none := by
  induction m with
  | nil => rfl
  | cons hd tl ih =>
    simp only [List.map_cons, List.mem_cons] at h
    push_neg at h
    simp only [mapFind, if_neg h.1]
    exact ih h.2

theorem uniqueInsert_keys (r : Res) (f : AccessTypeFlags) :
    ∀ (m : List (Nat × (Res × AccessTypeFlags))) (x : Nat),
      x ∈ (uniqueInsert r f m).map (·.1) → x = r.id ∨ x ∈ m.map (·.1) := by
  intro m
  induction m with
  | nil =>
    intro x hx
    simp only [uniqueInsert, List.map_cons, List.map_nil, List.mem_singleton] at hx
    exact Or.inl hx
  | cons hd tl ih =>
    intro x hx
    obtain ⟨k', v'⟩ := hd
    simp only [uniqueInsert] at hx
    by_cases hlt : r.id < k'
    · simp only [if_pos hlt, List.map_cons, List.mem_cons] at hx
      rcases hx with h | h | h
      · exact Or.inl h
      · exact Or.inr (by simp [h])
      · exact Or.inr (by simp [h])
    · simp only [if_neg hlt] at hx
      by_cases heq : r.id = k'
      · simp only [if_pos heq, List.map_cons, List.mem_cons] at hx
        rcases hx with h | h
        · exact Or.inr (by simp [h])
        · exact Or.inr (by simp [h])
      · simp only [if_neg heq, List.map_cons, List.mem_cons] at hx
        rcases hx with h | h
        · exact Or.inr (by simp [h])
        · rcases ih x h with h' | h'
          · exact Or.inl h'
          · exact Or.inr (by simp [h'])

theorem uniqueInsert_sorted (r : Res) (f : AccessTypeFlags) :
    ∀ (m : List (Nat × (Res × AccessTypeFlags))),
      (m.map (·.1)).Pairwise (· < ·) →
      ((uniqueInsert r f m).map (·.1)).Pairwise (· < ·) := by
  intro m
  induction m with
  | nil =>
    intro _
    simp [uniqueInsert]
  | cons hd tl ih =>
    intro hm
    obtain ⟨k', v'⟩ := hd
    simp only [List.map_cons, List.pairwise_cons] at hm
    obtain ⟨hlb, htl⟩ := hm
    simp only [uniqueInsert]
    by_cases hlt : r.id < k'
    · simp only [if_pos hlt, List.map_cons, List.pairwise_cons, List.mem_cons]
      refine ⟨?_, hlb, htl⟩
      intro x hx
      rcases hx with h | h
      · omega
      · have := hlb x h
        omega
    · simp only [if_neg hlt]
      by_cases heq : r.id = k'
      · simp only [if_pos heq, List.map_cons, List.pairwise_cons]
        exact ⟨hlb, htl⟩
      · simp only [if_neg heq, List.map_cons, List.pairwise_cons]
        refine ⟨?_, ih htl⟩
        intro x hx
        rcases uniqueInsert_keys r f tl x hx with h | h
        · omega
        · exact hlb x h

theorem mapFind_uniqueInsert (r : Res) (f : AccessTypeFlags) (j : Nat) :
    ∀ (m : List (Nat × (Res × AccessTypeFlags))),
    (m.map (·.1)).Pairwise (· < ·) →
    mapFind j (uniqueInsert r f m) =
      if j = r.id then
        match mapFind j m with
        | some rf => some (rf.1, rf.2 ||| f)
        | Option.none => some (r, f)
      else mapFind j m := by
  intro m
  induction m with
  | nil =>
    intro _
    simp only [uniqueInsert, mapFind]
  | cons hd tl ih =>
    intro hm
    obtain ⟨k', v'⟩ := hd
    simp only [List.map_cons, List.pairwise_cons] at hm
    obtain ⟨hlb, htl⟩ := hm
    simp only [uniqueInsert]
    by_cases hlt : r.id < k'
    · simp only [if_pos hlt, mapFind]
      by_cases hj : j = r.id
      · subst hj
        have hne : ¬r.id = k' := by omega
        have hnm : mapFind r.id tl = Option.none := by
          apply mapFind_eq_none
          intro hmem
          have := hlb r.id hmem
          omega
        simp [hne, hnm]
      · simp [hj]
    · simp only [if_neg hlt]
      by_cases heq : r.id = k'
      · subst heq
        simp only [if_pos rfl, mapFind]
        by_cases hj : j = r.id
        · simp [hj]
        · simp [hj]
      · simp only [if_neg heq, mapFind, ih htl]
        by_cases hj : j = k'
        · have hne : ¬j = r.id := by omega
          have hne2 : ¬k' = r.id := by omega
          simp [hj, hne, hne2]
        · simp [hj]

theorem mapFind_buildUniqueFrom (k : Nat) :
    ∀ (l : List (Res × AccessTypeFlags)) (m : List (Nat × (Res × AccessTypeFlags))),
    (m.map (·.1)).Pairwise (· < ·) →
    mapFind k (buildUniqueFrom m l) =
      match mapFind k m with
      | some rf => some (rf.1, accumulateFlags k rf.2 l)
      | Option.none =>
        match firstResWith k l with
        | some r => some (r, accumulateFlags k AccessType.noneFlag l)
        | Option.none => Option.none := by
  intro l
  induction l with
  | nil =>
    intro m _
    simp only [buildUniqueFrom, List.foldl_nil, accumulateFlags, firstResWith]
    cases mapFind k m <;> rfl
  | cons hd tl ih =>
    intro m hm
    obtain ⟨r, f⟩ := hd
    have hstep : buildUniqueFrom m ((r, f) :: tl) = buildUniqueFrom (uniqueInsert r f m) tl := rfl
    rw [hstep, ih (uniqueInsert r f m) (uniqueInsert_sorted r f m hm),
      mapFind_uniqueInsert r f k m hm]
    by_cases hk : k = r.id
    · have hk' : r.id = k := hk.symm
      simp only [if_pos hk, accumulateFlags, firstResWith, if_pos hk']
      cases hfind : mapFind k m with
      | some rf => rfl
      | none =>
        have : AccessType.noneFlag ||| f = f := Nat.zero_or f
        rw [this]
    · have hk2 : ¬r.id = k := fun hc => hk hc.symm
      simp only [if_neg hk, accumulateFlags, firstResWith, if_neg hk2]

theorem mapFind_buildUniqueResources (k : Nat) (l : List (Res × AccessTypeFlags)) :
    mapFind k (buildUniqueResources l) =
      match firstResWith k l with
      | some r => some (r, accumulateFlags k AccessType.noneFlag l)
      | Option.none => Option.none := by
  rw [buildUniqueResources_eq_from, mapFind_buildUniqueFrom k l [] (by simp)]
  rfl

theorem buildUniqueFrom_sorted :
    ∀ (l : List (Res × AccessTypeFlags)) (m : List (Nat × (Res × AccessTypeFlags))),
    (m.map (·.1)).Pairwise (· < ·) →
    ((buildUniqueFrom m l).map (·.1)).Pairwise (· < ·) := by
  intro l
  induction l with
  | nil => intro m hm; exact hm
  | cons hd tl ih =>
    intro m hm
    exact ih (uniqueInsert hd.1 hd.2 m) (uniqueInsert_sorted hd.1 hd.2 m hm)

theorem buildUniqueFrom_entriesOk :
    ∀ (l : List (Res × AccessTypeFlags)) (m : List (Nat × (Res × AccessTypeFlags))),
    (∀ e ∈ m, e.1 = e.2.1.id) →
    ∀ e ∈ buildUniqueFrom m l, e.1 = e.2.1.id := by
  intro l
  induction l with
  | nil => intro m hm; exact hm
  | cons hd tl ih =>
    intro m hm
    apply ih
    intro e he
    obtain ⟨r, f⟩ := hd
    clear ih
    induction m with
    | nil =>
      simp only [uniqueInsert, List.mem_singleton] at he
      simp [he]
    | cons hd' tl' ih' =>
      obtain ⟨k', v'⟩ := hd'
      simp only [uniqueInsert] at he
      by_cases hlt : r.id < k'
      · simp only [if_pos hlt, List.mem_cons] at he
        rcases he with h | h | h
        · simp [h]
        · exact hm _ (by simp [h])
        · exact hm _ (List.mem_cons_of_mem _ h)
      · simp only [if_neg hlt] at he
        by_cases heq : r.id = k'
        · simp only [if_pos heq, List.mem_cons] at he
          rcases he with h | h
          · have := hm (k', v') (List.mem_cons_self _ _)
            simp only at this
            simp [h, this]
          · exact hm _ (List.mem_cons_of_mem _ h)
        · simp only [if_neg heq, List.mem_cons] at he
          rcases he with h | h
          · exact hm _ (by simp [h])
          · exact ih' (fun e' he' => hm e' (List.mem_cons_of_mem _ he')) h

theorem bucketBarriers_nil (bucket newStage : Operation) (ung : List (Nat × ResourceAccesInfo)) :
    bucketBarriers bucket newStage ung [] = [] := rfl

theorem bucketBarriers_cons_skip (bucket newStage : Operation)
    (ung : List (Nat × ResourceAccesInfo)) (rf : Res × AccessTypeFlags)
    (tl : List (Res × AccessTypeFlags)) (info : ResourceAccesInfo)
    (hfind : mapFind rf.1.id ung = some info)
    (hskip : skipsBarrier info.accessType rf.2 = true) :
    bucketBarriers bucket newStage ung (rf :: tl) = bucketBarriers bucket newStage ung tl := by
  simp only [bucketBarriers, List.filterMap_cons]
  rw [hfind]
  cases rf.1 <;> simp [hskip]

theorem bucketBarriers_cons_notfound (bucket newStage : Operation)
    (ung : List (Nat × ResourceAccesInfo)) (rf : Res × AccessTypeFlags)
    (tl : List (Res × AccessTypeFlags))
    (hfind : mapFind rf.1.id ung = Option.none) :
    bucketBarriers bucket newStage ung (rf :: tl) = bucketBarriers bucket newStage ung tl := by
  simp only [bucketBarriers, List.filterMap_cons]
  rw [hfind]

theorem bucketBarriers_cons_buf (bucket newStage : Operation)
    (ung : List (Nat × ResourceAccesInfo)) (b : BufferRes) (f : AccessTypeFlags)
    (tl : List (Res × AccessTypeFlags)) (info : ResourceAccesInfo)
    (hfind : mapFind (Res.buf b).id ung = some info)
    (hskip : skipsBarrier info.accessType f = false) :
    bucketBarriers bucket newStage ung ((Res.buf b, f) :: tl) =
      (if info.accessStage = bucket then
        [makeBufferMemoryBarrier b (accessMaskSpec info.accessStage info.accessType)
          (accessMaskSpec newStage f)]
      else []) ++ bucketBarriers bucket newStage ung tl := by
  simp only [bucketBarriers, List.filterMap_cons]
  rw [hfind]
  by_cases hb : info.accessStage = bucket
  · simp [hskip, hb]
  · simp [hskip, hb]

theorem buildUniqueResources_ids_pairwise (l : List (Res × AccessTypeFlags)) :
    (((buildUniqueResources l).map (·.2)).map (fun rf => rf.1.id)).Pairwise (· ≠ ·) := by
  have hsorted : ((buildUniqueResources l).map (·.1)).Pairwise (· < ·) :=
    buildUniqueFrom_sorted l [] (by simp)
  have hok : ∀ e ∈ buildUniqueResources l, e.1 = e.2.1.id :=
    buildUniqueFrom_entriesOk l [] (by simp)
  have hmap : ((buildUniqueResources l).map (·.2)).map (fun rf => rf.1.id) =
      (buildUniqueResources l).map (·.1) := by
    rw [List.map_map]
    exact List.map_congr_left fun e he => (hok e he).symm
  rw [hmap]
  exact hsorted.imp (fun h => Nat.ne_of_lt h)

theorem depLoop_ok_spec (σ : Operation) :
    ∀ (l : List (Res × AccessTypeFlags)) (ung : List (Nat × ResourceAccesInfo))
      (sh tr : List BufferMemoryBarrier) (ung' : List (Nat × ResourceAccesInfo)),
      (l.map (fun rf => rf.1.id)).Pairwise (· ≠ ·) →
      depLoop σ l ung = .ok (sh, tr, ung') →
      sh = bucketBarriers Operation.task σ ung l ∧
      tr = bucketBarriers Operation.transfer σ ung l ∧
      (∀ rf ∈ l, mapFind rf.1.id ung' = ungAfterEntry σ (mapFind rf.1.id ung) rf.2) ∧
      (∀ k, k ∉ l.map (fun rf => rf.1.id) → mapFind k ung' = mapFind k ung) := by
  intro l
  induction l with
  | nil =>
    intro ung sh tr ung' _ h
    simp only [depLoop] at h
    have h1 := Except.ok.inj h
    simp only [Prod.mk.injEq] at h1
    obtain ⟨hsh, htr, hung⟩ := h1
    refine ⟨hsh.symm, htr.symm, ?_, ?_⟩
    · intro rf hrf
      exact absurd hrf (List.not_mem_nil rf)
    · intro k _
      rw [← hung]
  | cons hd tl ih =>
    intro ung sh tr ung' hdist h
    obtain ⟨r, f⟩ := hd
    simp only [List.map_cons, List.pairwise_cons] at hdist
    obtain ⟨hhead, htl⟩ := hdist
    have hnotmem : r.id ∉ tl.map (fun rf => rf.1.id) := fun hmem => (hhead _ hmem) rfl
    simp only [depLoop] at h
    cases hfind : mapFind r.id ung with
    | some info =>
      rw [hfind] at h
      simp only [] at h
      by_cases h1 : info.accessType = AccessType.read ∧ f = AccessType.read
      · rw [if_pos h1] at h
        have hskip : skipsBarrier info.accessType f = true := by
          simp [skipsBarrier, h1.1, h1.2]
        obtain ⟨ihsh, ihtr, ihpt, ihout⟩ := ih ung sh tr ung' htl h
        refine ⟨?_, ?_, ?_, ?_⟩
        · rw [ihsh, bucketBarriers_cons_skip _ _ _ _ _ info hfind hskip]
        · rw [ihtr, bucketBarriers_cons_skip _ _ _ _ _ info hfind hskip]
        · intro rf hrf
          rcases List.mem_cons.mp hrf with hrf | hrf
          · subst hrf
            rw [ihout r.id hnotmem, hfind]
            simp [ungAfterEntry, hskip]
          · exact ihpt rf hrf
        · intro k hk
          simp only [List.map_cons, List.mem_cons] at hk
          push_neg at hk
          exact ihout k hk.2
      · rw [if_neg h1] at h
        by_cases h2 : info.accessType = AccessType.noneFlag ∨ f = AccessType.noneFlag
        · rw [if_pos h2] at h
          have hskip : skipsBarrier info.accessType f = true := by
            rcases h2 with h2 | h2 <;> simp [skipsBarrier, h2]
          obtain ⟨ihsh, ihtr, ihpt, ihout⟩ := ih ung sh tr ung' htl h
          refine ⟨?_, ?_, ?_, ?_⟩
          · rw [ihsh, bucketBarriers_cons_skip _ _ _ _ _ info hfind hskip]
          · rw [ihtr, bucketBarriers_cons_skip _ _ _ _ _ info hfind hskip]
          · intro rf hrf
            rcases List.mem_cons.mp hrf with hrf | hrf
            · subst hrf
              rw [ihout r.id hnotmem, hfind]
              simp [ungAfterEntry, hskip]
            · exact ihpt rf hrf
          · intro k hk
            simp only [List.map_cons, List.mem_cons] at hk
            push_neg at hk
            exact ihout k hk.2
        · rw [if_neg h2] at h
          have hskip : skipsBarrier info.accessType f = false := by
            push_neg at h2
            simp only [skipsBarrier, Bool.or_eq_false_iff, Bool.and_eq_false_iff,
              decide_eq_false_iff_not]
            tauto
          cases r with
          | img i =>
            simp at h
          | buf b =>
            simp only [] at h
            cases hsrc : mapStageAndAccessMask info.accessStage info.accessType with
            | error e =>
              rw [hsrc] at h
              simp at h
            | ok src =>
              rw [hsrc] at h
              simp only [] at h
              cases hdst : mapStageAndAccessMask σ f with
              | error e =>
                rw [hdst] at h
                simp at h
              | ok dst =>
                rw [hdst] at h
                simp only [] at h
                cases hrec : depLoop σ tl
                    (mapInsertOrAssign (Res.buf b).id ⟨f, σ⟩ ung) with
                | error e =>
                  rw [hrec] at h
                  simp at h
                | ok res =>
                  rw [hrec] at h
                  simp only [] at h
                  obtain ⟨hsrcStage, hsrcVal⟩ := (mapStageAndAccessMask_ok_iff _ _ _).mp hsrc
                  obtain ⟨hdstStage, hdstVal⟩ := (mapStageAndAccessMask_ok_iff _ _ _).mp hdst
                  obtain ⟨ihsh, ihtr, ihpt, ihout⟩ :=
                    ih (mapInsertOrAssign (Res.buf b).id ⟨f, σ⟩ ung) res.1 res.2.1 res.2.2 htl
                      (by rw [hrec])
                  have hcongr : ∀ rf ∈ tl,
                      mapFind rf.1.id (mapInsertOrAssign (Res.buf b).id ⟨f, σ⟩ ung) =
                      mapFind rf.1.id ung := by
                    intro rf hrf
                    rw [mapFind_insertOrAssign]
                    have : rf.1.id ≠ (Res.buf b).id := by
                      intro hc
                      apply hnotmem
                      rw [← hc]
                      exact List.mem_map_of_mem (fun rf => rf.1.id) hrf
                    rw [if_neg this]
                  have hshtl : bucketBarriers Operation.task σ
                      (mapInsertOrAssign (Res.buf b).id ⟨f, σ⟩ ung) tl =
                      bucketBarriers Operation.task σ ung tl :=
                    bucketBarriers_congr _ _ _ _ _ hcongr
                  have htrtl : bucketBarriers Operation.transfer σ
                      (mapInsertOrAssign (Res.buf b).id ⟨f, σ⟩ ung) tl =
                      bucketBarriers Operation.transfer σ ung tl :=
                    bucketBarriers_congr _ _ _ _ _ hcongr
                  have hbarrier : makeBufferMemoryBarrier b src.2 dst.2 =
                      makeBufferMemoryBarrier b
                        (accessMaskSpec info.accessStage info.accessType)
                        (accessMaskSpec σ f) := by
                    rw [hsrcVal, hdstVal]
                  have hpoint : ∀ rf ∈ (Res.buf b, f) :: tl,
                      mapFind rf.1.id res.2.2 = ungAfterEntry σ (mapFind rf.1.id ung) rf.2 := by
                    intro rf hrf
                    rcases List.mem_cons.mp hrf with hrf | hrf
                    · subst hrf
                      rw [ihout (Res.buf b).id hnotmem, mapFind_insertOrAssign, if_pos rfl,
                        hfind]
                      simp [ungAfterEntry, hskip]
                    · rw [ihpt rf hrf, hcongr rf hrf]
                  have houter : ∀ k, k ∉ ((Res.buf b, f) :: tl).map (fun rf => rf.1.id) →
                      mapFind k res.2.2 = mapFind k ung := by
                    intro k hk
                    simp only [List.map_cons, List.mem_cons] at hk
                    push_neg at hk
                    rw [ihout k hk.2, mapFind_insertOrAssign, if_neg hk.1]
                  by_cases hstage : info.accessStage = Operation.task
                  · rw [if_pos hstage] at h
                    have hinj := Except.ok.inj h
                    simp only [Prod.mk.injEq] at hinj
                    obtain ⟨hsh, htr2, hung⟩ := hinj
                    refine ⟨?_, ?_, ?_, ?_⟩
                    · rw [← hsh, ihsh, hshtl,
                        bucketBarriers_cons_buf Operation.task σ ung b f tl info hfind hskip,
                        if_pos hstage, hbarrier]
                      rfl
                    · rw [← htr2, ihtr, htrtl,
                        bucketBarriers_cons_buf Operation.transfer σ ung b f tl info hfind hskip,
                        if_neg (by rw [hstage]; intro hc; cases hc)]
                      rfl
                    · intro rf hrf
                      rw [← hung]
                      exact hpoint rf hrf
                    · intro k hk
                      rw [← hung]
                      exact houter k hk
                  · by_cases hstage2 : info.accessStage = Operation.transfer
                    · rw [if_neg hstage, if_pos hstage2] at h
                      have hinj := Except.ok.inj h
                      simp only [Prod.mk.injEq] at hinj
                      obtain ⟨hsh, htr2, hung⟩ := hinj
                      refine ⟨?_, ?_, ?_, ?_⟩
                      · rw [← hsh, ihsh, hshtl,
                          bucketBarriers_cons_buf Operation.task σ ung b f tl info hfind hskip,
                          if_neg hstage]
                        rfl
                      · rw [← htr2, ihtr, htrtl,
                          bucketBarriers_cons_buf Operation.transfer σ ung b f tl info hfind
                            hskip,
                          if_pos hstage2, hbarrier]
                        rfl
                      · intro rf hrf
                        rw [← hung]
                        exact hpoint rf hrf
                      · intro k hk
                        rw [← hung]
                        exact houter k hk
                    · cases hso : info.accessStage with
                      | task => exact absurd hso hstage
                      | transfer => exact absurd hso hstage2
                      | noneOp => exact absurd hso hsrcStage
    | none =>
      rw [hfind] at h
      simp only [] at h
      obtain ⟨ihsh, ihtr, ihpt, ihout⟩ :=
        ih (mapInsertOrAssign r.id ⟨f, σ⟩ ung) sh tr ung' htl h
      have hcongr : ∀ rf ∈ tl,
          mapFind rf.1.id (mapInsertOrAssign r.id ⟨f, σ⟩ ung) = mapFind rf.1.id ung := by
        intro rf hrf
        rw [mapFind_insertOrAssign]
        have : rf.1.id ≠ r.id := by
          intro hc
          apply hnotmem
          rw [← hc]
          exact List.mem_map_of_mem (fun rf => rf.1.id) hrf
        rw [if_neg this]
      refine ⟨?_, ?_, ?_, ?_⟩
      · rw [ihsh, bucketBarriers_congr _ _ _ _ _ hcongr,
          bucketBarriers_cons_notfound _ _ _ _ _ hfind]
      · rw [ihtr, bucketBarriers_congr _ _ _ _ _ hcongr,
          bucketBarriers_cons_notfound _ _ _ _ _ hfind]
      · intro rf hrf
        rcases List.mem_cons.mp hrf with hrf | hrf
        · subst hrf
          rw [ihout r.id hnotmem, mapFind_insertOrAssign, if_pos rfl, hfind]
          rfl
        · rw [ihpt rf hrf, hcongr rf hrf]
      · intro k hk
        simp only [List.map_cons, List.mem_cons] at hk
        push_neg at hk
        rw [ihout k hk.2, mapFind_insertOrAssign, if_neg hk.1]

theorem mapFind_mem {α : Type} (k : Nat) (m : List (Nat × α)) (v : α)
    (h : mapFind k m = some v) : (k, v) ∈ m := by
  induction m with
  | nil => simp [mapFind] at h
  | cons hd tl ih =>
    obtain ⟨k', v'⟩ := hd
    simp only [mapFind] at h
    by_cases hk : k = k'
    · rw [if_pos hk] at h
      injection h with h
      subst hk
      subst h
      exact List.mem_cons_self _ _
    · rw [if_neg hk] at h
      exact List.mem_cons_of_mem _ (ih h)

theorem firstResWith_isSome (r : Res) :
    ∀ (rs : List Res) (fl : List AccessTypeFlags), r ∈ rs → rs.length = fl.length →
      (firstResWith r.id (rs.zip fl)).isSome := by
  intro rs
  induction rs with
  | nil =>
    intro fl hmem
    exact absurd hmem (List.not_mem_nil r)
  | cons hd tl ih =>
    intro fl hmem hlen
    cases fl with
    | nil => simp at hlen
    | cons fh ft =>
      simp only [List.zip_cons_cons, firstResWith]
      by_cases hid : hd.id = r.id
      · rw [if_pos hid]
        rfl
      · rw [if_neg hid]
        rcases List.mem_cons.mp hmem with hmem | hmem
        · exact absurd (by rw [hmem]) hid
        · exact ih ft hmem (by simpa using hlen)

/-- Main characterization of a successful checkDataDependency call with the
tracker enabled: the stage is Task or Transfer, the lengths matched, the
commands grow by at most one pipeline barrier per source-stage bucket (the
compute-shader bucket first) whose destination stage is the new stage and
whose buffer barriers are exactly the per-resource barriers the spec dictates,
and the unguarded map is rewritten pointwise per entry. -/
theorem checkDataDependency_ok_parts (s : JobState) (rs : List Res) (σ : Operation)
    (fl : List AccessTypeFlags) (s' : JobState)
    (hauto : s.autoDataDependencyManagement = true)
    (h : checkDataDependency s rs σ fl = .ok s') :
    rs.length = fl.length ∧
    σ ≠ Operation.noneOp ∧
    s'.commands = s.commands
      ++ (if bucketBarriers Operation.task σ s.unguardedResourceAccess
            ((buildUniqueResources (rs.zip fl)).map (·.2)) ≠ [] then
          [Cmd.pipelineBarrier VK_PIPELINE_STAGE_COMPUTE_SHADER_BIT (stageSpec σ) []
            (bucketBarriers Operation.task σ s.unguardedResourceAccess
              ((buildUniqueResources (rs.zip fl)).map (·.2))) []]
        else [])
      ++ (if bucketBarriers Operation.transfer σ s.unguardedResourceAccess
            ((buildUniqueResources (rs.zip fl)).map (·.2)) ≠ [] then
          [Cmd.pipelineBarrier VK_PIPELINE_STAGE_TRANSFER_BIT (stageSpec σ) []
            (bucketBarriers Operation.transfer σ s.unguardedResourceAccess
              ((buildUniqueResources (rs.zip fl)).map (·.2))) []]
        else []) ∧
    (∀ rf ∈ (buildUniqueResources (rs.zip fl)).map (·.2),
      mapFind rf.1.id s'.unguardedResourceAccess =
        ungAfterEntry σ (mapFind rf.1.id s.unguardedResourceAccess) rf.2) ∧
    (∀ k, k ∉ ((buildUniqueResources (rs.zip fl)).map (·.2)).map (fun rf => rf.1.id) →
      mapFind k s'.unguardedResourceAccess = mapFind k s.unguardedResourceAccess) := by
  unfold checkDataDependency at h
  rw [if_neg (by rw [hauto]; exact fun hc => Bool.noConfusion hc)] at h
  by_cases hlen : rs.length ≠ fl.length
  · rw [if_pos hlen] at h
    exact absurd h (by simp)
  · rw [if_neg hlen] at h
    push_neg at hlen
    cases hdep : depLoop σ ((buildUniqueResources (rs.zip fl)).map (·.2))
        s.unguardedResourceAccess with
    | error e =>
      rw [hdep] at h
      simp at h
    | ok res =>
      rw [hdep] at h
      simp only [] at h
      cases hstage : mapStage σ with
      | error e =>
        rw [hstage] at h
        simp at h
      | ok dstStage =>
        rw [hstage] at h
        simp only [] at h
        obtain ⟨hσ, hdstStage⟩ := (mapStage_ok_iff σ dstStage).mp hstage
        obtain ⟨hsh, htr, hpt, hout⟩ := depLoop_ok_spec σ
          ((buildUniqueResources (rs.zip fl)).map (·.2)) s.unguardedResourceAccess
          res.1 res.2.1 res.2.2 (buildUniqueResources_ids_pairwise (rs.zip fl))
          (by rw [hdep])
        have hinj := Except.ok.inj h
        refine ⟨hlen, hσ, ?_, ?_, ?_⟩
        · rw [← hinj]
          simp only []
          rw [← hsh, ← htr, hdstStage]
        · intro rf hrf
          rw [← hinj]
          exact hpt rf hrf
        · intro k hk
          rw [← hinj]
          exact hout k hk

/-- C1: For every operation processed by the dependency tracker with
auto-dependency on, a per-buffer memory barrier is emitted for a participating
resource with a recorded unguarded access iff neither side is None and they
are not both Read; the barrier masks are derived from the recorded and the
requested (stage, access) pairs per the mapping table, barriers are grouped
by source stage into at most one pipeline-barrier command per bucket
(compute-shader bucket first, then transfer), each with destination stage
equal to the new operation stage.  The last five conjuncts restate the
mapping table rows bit-exactly. -/
theorem checkDataDependency_emits_bucketed_barriers
    (s : JobState) (rs : List Res) (σ : Operation) (fl : List AccessTypeFlags) (s' : JobState)
    (hauto : s.autoDataDependencyManagement = true)
    (h : checkDataDependency s rs σ fl = .ok s') :
    s'.commands = s.commands
      ++ (if bucketBarriers Operation.task σ s.unguardedResourceAccess
            ((buildUniqueResources (rs.zip fl)).map (·.2)) ≠ [] then
          [Cmd.pipelineBarrier VK_PIPELINE_STAGE_COMPUTE_SHADER_BIT (stageSpec σ) []
            (bucketBarriers Operation.task σ s.unguardedResourceAccess
              ((buildUniqueResources (rs.zip fl)).map (·.2))) []]
        else [])
      ++ (if bucketBarriers Operation.transfer σ s.unguardedResourceAccess
            ((buildUniqueResources (rs.zip fl)).map (·.2)) ≠ [] then
          [Cmd.pipelineBarrier VK_PIPELINE_STAGE_TRANSFER_BIT (stageSpec σ) []
            (bucketBarriers Operation.transfer σ s.unguardedResourceAccess
              ((buildUniqueResources (rs.zip fl)).map (·.2))) []]
        else []) ∧
    mapStageAndAccessMask Operation.task AccessType.read =
      .ok (VK_PIPELINE_STAGE_COMPUTE_SHADER_BIT, VK_ACCESS_SHADER_READ_BIT) ∧
    mapStageAndAccessMask Operation.task AccessType.write =
      .ok (VK_PIPELINE_STAGE_COMPUTE_SHADER_BIT, VK_ACCESS_SHADER_WRITE_BIT) ∧
    mapStageAndAccessMask Operation.task (AccessType.read ||| AccessType.write) =
      .ok (VK_PIPELINE_STAGE_COMPUTE_SHADER_BIT,
        VK_ACCESS_SHADER_READ_BIT ||| VK_ACCESS_SHADER_WRITE_BIT) ∧
    mapStageAndAccessMask Operation.transfer AccessType.read =
      .ok (VK_PIPELINE_STAGE_TRANSFER_BIT, VK_ACCESS_TRANSFER_READ_BIT) ∧
    mapStageAndAccessMask Operation.transfer AccessType.write =
      .ok (VK_PIPELINE_STAGE_TRANSFER_BIT, VK_ACCESS_TRANSFER_WRITE_BIT) := by
  refine ⟨(checkDataDependency_ok_parts s rs σ fl s' hauto h).2.2.1,
    by decide, by decide, by decide, by decide, by decide⟩

/-- Witness for C1: a recorded transfer write followed by a task read on the
same device-local buffer emits exactly one transfer-bucket pipeline barrier
into the compute-shader stage, with masks TransferWrite to ShaderRead. -/
theorem checkDataDependency_emits_bucketed_barriers_witness :
    checkDataDependency witStateWrite [Res.buf witBuf] Operation.task [AccessType.read] =
      .ok witResultWrite ∧
    witResultWrite.commands =
      [Cmd.pipelineBarrier VK_PIPELINE_STAGE_TRANSFER_BIT
        VK_PIPELINE_STAGE_COMPUTE_SHADER_BIT []
        [makeBufferMemoryBarrier witBuf VK_ACCESS_TRANSFER_WRITE_BIT
          VK_ACCESS_SHADER_READ_BIT] []] := by
  have hmain := checkDataDependency_emits_bucketed_barriers witStateWrite [Res.buf witBuf]
    Operation.task [AccessType.read] witResultWrite rfl (by decide)
  refine ⟨by decide, ?_⟩
  rw [hmain.1]
  decide

/-- C2 (amended): after the tracker processes an operation, each
participating resource's unguarded entry is overwritten with (OR-ed requested
flags, new stage) unless the recorded access and the OR-ed requested access
satisfy the skip condition (both Read, or either None), in which case the
previous entry is left unchanged (the continue statements skip the
insert_or_assign). -/
theorem checkDataDependency_unguarded_update
    (s : JobState) (rs : List Res) (σ : Operation) (fl : List AccessTypeFlags) (s' : JobState)
    (hauto : s.autoDataDependencyManagement = true)
    (h : checkDataDependency s rs σ fl = .ok s') :
    ∀ r ∈ rs, ∃ r0,
      mapFind r.id (buildUniqueResources (rs.zip fl)) =
        some (r0, accumulateFlags r.id AccessType.noneFlag (rs.zip fl)) ∧
      mapFind r.id s'.unguardedResourceAccess =
        ungAfterEntry σ (mapFind r.id s.unguardedResourceAccess)
          (accumulateFlags r.id AccessType.noneFlag (rs.zip fl)) := by
  intro r hr
  obtain ⟨hlen, hσ, hcmds, hpt, hout⟩ := checkDataDependency_ok_parts s rs σ fl s' hauto h
  have hfind := mapFind_buildUniqueResources r.id (rs.zip fl)
  have hsome := firstResWith_isSome r rs fl hr hlen
  cases hfrw : firstResWith r.id (rs.zip fl) with
  | none => rw [hfrw] at hsome; simp at hsome
  | some r0 =>
    rw [hfrw] at hfind
    simp only [] at hfind
    refine ⟨r0, hfind, ?_⟩
    have hmem := mapFind_mem r.id (buildUniqueResources (rs.zip fl)) _ hfind
    have hok := buildUniqueFrom_entriesOk (rs.zip fl) [] (by simp) _ hmem
    simp only [] at hok
    have hmem2 : (r0, accumulateFlags r.id AccessType.noneFlag (rs.zip fl)) ∈
        (buildUniqueResources (rs.zip fl)).map (·.2) :=
      List.mem_map_of_mem _ hmem
    have := hpt _ hmem2
    simp only [] at this
    rw [← hok] at this
    exact this

/-- Witness for C2: a recorded transfer write followed by a task read leaves
the entry overwritten with (Read, Task). -/
theorem checkDataDependency_unguarded_update_witness :
    checkDataDependency witStateWrite [Res.buf witBuf] Operation.task [AccessType.read] =
      .ok witResultWrite ∧
    mapFind 1 witResultWrite.unguardedResourceAccess =
      some { accessType := AccessType.read, accessStage := Operation.task } := by
  refine ⟨by decide, ?_⟩
  have hmain := checkDataDependency_unguarded_update witStateWrite [Res.buf witBuf]
    Operation.task [AccessType.read] witResultWrite rfl (by decide)
  obtain ⟨r0, hfind, hval⟩ := hmain (Res.buf witBuf) (List.mem_cons_self _ _)
  rw [show (Res.buf witBuf).id = 1 from rfl] at hval
  rw [hval]
  decide

/-- Counterexample for C2 as stated: with a recorded unguarded transfer Read
of resource 1, a task Read of the same resource is processed successfully but
the unguarded entry still holds (Read, Transfer), not the claimed
(Read, Task): on the read-after-read skip path the entry is NOT
overwritten. -/
theorem checkDataDependency_read_read_keeps_old_entry :
    checkDataDependency witStateRead [Res.buf witBuf] Operation.task [AccessType.read] =
      .ok witStateRead ∧
    mapFind 1 witStateRead.unguardedResourceAccess =
      some { accessType := AccessType.read, accessStage := Operation.transfer } ∧
    mapFind 1 witStateRead.unguardedResourceAccess ≠
      some { accessType := AccessType.read, accessStage := Operation.task } := by
  refine ⟨?_, by decide, by decide⟩
  show checkDataDependency _ _ _ _ = _
  decide

theorem runTransfers_spec (l : List TransferInfoModel) :
    runTransfers l = (memCpysOf l, l.filter (fun t => !t.destroyAfterTransfer)) := by
  induction l with
  | nil => rfl
  | cons t rest ih =>
    simp only [runTransfers, ih, memCpysOf, List.filterMap_cons, List.filter_cons]
    cases t.host <;> cases hd : t.destroyAfterTransfer <;> simp [hd, Option.map]

/-- C3: submit on a submitted-and-not-awaited job fails IllegalState without
enqueueing; await on fence timeout returns false leaving the state (including
the post-execution transfers and the submitted flag) untouched; await on
fence success flushes the post-execution transfers, marks not-submitted, and
a subsequent submit succeeds. -/
theorem submit_await_state_machine (s : JobState) (h : s.isSubmitted = true) :
    submit s = .error .illegalState ∧
    await s FenceWaitResult.timeout = .ok (s, false) ∧
    ∃ s', await s FenceWaitResult.success = .ok (s', true) ∧
      s'.isSubmitted = false ∧
      s'.postExecutionTransfers =
        s.postExecutionTransfers.filter (fun t => !t.destroyAfterTransfer) ∧
      s'.hostReads = s.hostReads ++ memCpysOf s.postExecutionTransfers ∧
      ∃ s'', submit s' = .ok s'' ∧ s''.isSubmitted = true ∧
        s''.submitCount = s.submitCount + 1 := by
  refine ⟨?_, rfl, ?_⟩
  · unfold submit
    cases hr : s.isRecorded <;> simp [h]
  · refine ⟨_, rfl, rfl, ?_, ?_, ?_⟩
    · simp [completePostExecutionTransfers, runTransfers_spec]
    · simp [completePostExecutionTransfers, runTransfers_spec]
    · unfold submit
      cases hr : ({ completePostExecutionTransfers s with
          isSubmitted := false } : JobState).isRecorded <;>
        simp [completePostExecutionTransfers, completePreExecutionTransfers]

/-- Witness for C3 at a concrete submitted job with one pending download. -/
theorem submit_await_state_machine_witness :
    witSubmittedJob.isSubmitted = true ∧
    submit witSubmittedJob = .error .illegalState := by
  refine ⟨rfl, ?_⟩
  exact (submit_await_state_machine _ rfl).1

/-- C9: flushing the pre/post-execution transfer lists removes exactly the
entries whose destroy-after-transfer flag is set, performs one host memcpy
per entry with a non-null host pointer (null entries are kept but skipped),
and submit and successful await behave accordingly, so transfer lists whose
entries are all user-queued (flag false) survive submit/await unchanged and
are re-performed on every resubmission. -/
theorem transfers_preserved_across_submit_await (s : JobState) :
    (completePreExecutionTransfers s).preExecutionTransfers =
      s.preExecutionTransfers.filter (fun t => !t.destroyAfterTransfer) ∧
    (completePreExecutionTransfers s).hostWrites =
      s.hostWrites ++ memCpysOf s.preExecutionTransfers ∧
    (completePostExecutionTransfers s).postExecutionTransfers =
      s.postExecutionTransfers.filter (fun t => !t.destroyAfterTransfer) ∧
    (completePostExecutionTransfers s).hostReads =
      s.hostReads ++ memCpysOf s.postExecutionTransfers ∧
    (∀ s₁, submit s = .ok s₁ →
      s₁.preExecutionTransfers =
        s.preExecutionTransfers.filter (fun t => !t.destroyAfterTransfer) ∧
      s₁.hostWrites = s.hostWrites ++ memCpysOf s.preExecutionTransfers ∧
      s₁.postExecutionTransfers = s.postExecutionTransfers) ∧
    (∀ s₂ b, await s FenceWaitResult.success = .ok (s₂, b) →
      s₂.postExecutionTransfers =
        s.postExecutionTransfers.filter (fun t => !t.destroyAfterTransfer) ∧
      s₂.hostReads = s.hostReads ++ memCpysOf s.postExecutionTransfers ∧
      s₂.preExecutionTransfers = s.preExecutionTransfers) ∧
    ((∀ t ∈ s.preExecutionTransfers, t.destroyAfterTransfer = false) →
      s.preExecutionTransfers.filter (fun t => !t.destroyAfterTransfer) =
        s.preExecutionTransfers) := by
  refine ⟨?_, ?_, ?_, ?_, ?_, ?_, ?_⟩
  · simp [completePreExecutionTransfers, runTransfers_spec]
  · simp [completePreExecutionTransfers, runTransfers_spec]
  · simp [completePostExecutionTransfers, runTransfers_spec]
  · simp [completePostExecutionTransfers, runTransfers_spec]
  · intro s₁ hsub
    unfold submit at hsub
    by_cases hrec : s.isRecorded = false
    · rw [if_pos hrec] at hsub
      by_cases hs : s.isSubmitted
      · simp [hs] at hsub
      · simp only [hs, if_neg, Bool.false_eq_true, if_false] at hsub
        have := Except.ok.inj hsub
        rw [← this]
        simp [completePreExecutionTransfers, runTransfers_spec]
    · rw [if_neg hrec] at hsub
      by_cases hs : s.isSubmitted
      · simp [hs] at hsub
      · simp only [hs, if_neg, Bool.false_eq_true, if_false] at hsub
        have := Except.ok.inj hsub
        rw [← this]
        simp [completePreExecutionTransfers, runTransfers_spec]
  · intro s₂ b haw
    unfold await at haw
    have := Except.ok.inj haw
    have hs2 : s₂ = { completePostExecutionTransfers s with isSubmitted := false } := by
      have := congrArg Prod.fst this
      simpa using this.symm
    rw [hs2]
    simp [completePostExecutionTransfers, runTransfers_spec]
  · intro hall
    apply List.filter_eq_self.mpr
    intro t ht
    simp [hall t ht]

/-- Witness for C9 at a job with one null-pointer download and one real
download, submitted and awaited: both entries survive and only the non-null
one produces a memcpy. -/
theorem transfers_preserved_across_submit_await_witness :
    (completePostExecutionTransfers { initialJob with postExecutionTransfers :=
        [{ deviceBufferId := 7, size := 4, host := Option.none,
           destroyAfterTransfer := false },
         { deviceBufferId := 8, size := 2, host := some 55,
           destroyAfterTransfer := false }] }).postExecutionTransfers =
      [{ deviceBufferId := 7, size := 4, host := Option.none,
         destroyAfterTransfer := false },
       { deviceBufferId := 8, size := 2, host := some 55,
         destroyAfterTransfer := false }] ∧
    (completePostExecutionTransfers { initialJob with postExecutionTransfers :=
        [{ deviceBufferId := 7, size := 4, host := Option.none,
           destroyAfterTransfer := false },
         { deviceBufferId := 8, size := 2, host := some 55,
           destroyAfterTransfer := false }] }).hostReads =
      [{ bufId := 8, size := 2, host := 55 }] := by
  have hmain := transfers_preserved_across_submit_await
    { initialJob with postExecutionTransfers :=
        [{ deviceBufferId := 7, size := 4, host := Option.none,
           destroyAfterTransfer := false },
         { deviceBufferId := 8, size := 2, host := some 55,
           destroyAfterTransfer := false }] }
  refine ⟨?_, ?_⟩
  · rw [hmain.2.2.1]
    decide
  · rw [hmain.2.2.2.1]
    decide

/-- C4 evaluated at the failing input: on a job that is submitted and not yet
awaited, the recording operations do NOT fail with IllegalState; they record
normally (syncResourceToDevice queues the upload, pushConstants stores the
blob, addTask records the dispatch, syncResourceToHost queues the download,
and useResources and the barrier helpers are infallible total operations).
Only submit itself checks the submitted flag. -/
theorem recording_after_submit_not_rejected :
    witSubmittedJob.isSubmitted = true ∧
    syncResourceToDevice witSubmittedJob (Res.buf witStagingBuf) (some 9) 4 =
      .ok { witSubmittedJob with
        preExecutionTransfers :=
          [{ deviceBufferId := 2, size := 4, host := some 9,
             destroyAfterTransfer := false }] } ∧
    pushConstants witSubmittedJob 8 =
      { witSubmittedJob with pendingConstants := some 8 } ∧
    (addTask (useResources witSubmittedJob 0 (Binding.resourceList [Res.buf witBuf]))
      witTask 1 1 1).isOk = true ∧
    (syncResourceToHost witSubmittedJob (Res.buf witBuf) (some 10) 4).isOk = true ∧
    (waitForTasksFinish witSubmittedJob).isSubmitted = true := by
  refine ⟨rfl, by decide, by decide, by decide, by decide, rfl⟩

/-- C7 evaluated at the failing input: for buffers the defaulted size behaves
as the full resource size, but syncResourceToDevice on an image with non-null
data and the size left at its UINT64_MAX default fails the exact-size check
(SizeMismatch) instead of uploading, and syncResourceToHost on a Staging
buffer with the defaulted size queues a transfer of UINT64_MAX bytes rather
than the buffer size. -/
theorem syncResource_default_size_behavior :
    witImg.size = 16 ∧
    syncResourceToDeviceDefault initialJob (Res.img witImg) (some 500) =
      .error .sizeMismatch ∧
    (syncResourceToDevice initialJob (Res.img witImg) (some 500) 16).isOk = true ∧
    syncResourceToDeviceDefault initialJob (Res.buf witBuf) (some 9) =
      syncResourceToDevice initialJob (Res.buf witBuf) (some 9) witBuf.size ∧
    syncResourceToHostDefault initialJob (Res.buf witStagingBuf) (some 9) =
      .ok { initialJob with
        postExecutionTransfers :=
          [{ deviceBufferId := 2, size := UINT64_MAX, host := some 9,
             destroyAfterTransfer := false }] } := by
  refine ⟨rfl, by decide, by decide, by decide, by decide⟩

theorem mapStageAndAccessMask_error (σ : Operation) (f : AccessTypeFlags) (e : JobError)
    (h : mapStageAndAccessMask σ f = .error e) : e = .unsupportedOperation := by
  cases σ <;> simp [mapStageAndAccessMask] at h
  exact h.symm

theorem mapStage_error (σ : Operation) (e : JobError)
    (h : mapStage σ = .error e) : e = .unsupportedOperation := by
  cases σ <;> simp [mapStage] at h
  exact h.symm

theorem depLoop_error_kinds (σ : Operation) :
    ∀ (l : List (Res × AccessTypeFlags)) (ung : List (Nat × ResourceAccesInfo)) (e : JobError),
      depLoop σ l ung = .error e →
      e = .unsupportedResourceType ∨ e = .unsupportedOperation := by
  intro l
  induction l with
  | nil =>
    intro ung e h
    simp [depLoop] at h
  | cons hd tl ih =>
    intro ung e h
    obtain ⟨r, f⟩ := hd
    simp only [depLoop] at h
    cases hfind : mapFind r.id ung with
    | some info =>
      rw [hfind] at h
      simp only [] at h
      by_cases h1 : info.accessType = AccessType.read ∧ f = AccessType.read
      · rw [if_pos h1] at h
        exact ih ung e h
      · rw [if_neg h1] at h
        by_cases h2 : info.accessType = AccessType.noneFlag ∨ f = AccessType.noneFlag
        · rw [if_pos h2] at h
          exact ih ung e h
        · rw [if_neg h2] at h
          cases r with
          | img i =>
            simp only [] at h
            injection h with h
            exact Or.inl h.symm
          | buf b =>
            simp only [] at h
            cases hsrc : mapStageAndAccessMask info.accessStage info.accessType with
            | error e' =>
              rw [hsrc] at h
              simp only [] at h
              injection h with h
              exact Or.inr (h ▸ mapStageAndAccessMask_error _ _ _ hsrc)
            | ok src =>
              rw [hsrc] at h
              simp only [] at h
              cases hdst : mapStageAndAccessMask σ f with
              | error e' =>
                rw [hdst] at h
                simp only [] at h
                injection h with h
                exact Or.inr (h ▸ mapStageAndAccessMask_error _ _ _ hdst)
              | ok dst =>
                rw [hdst] at h
                simp only [] at h
                cases hrec : depLoop σ tl (mapInsertOrAssign (Res.buf b).id ⟨f, σ⟩ ung) with
                | error e' =>
                  rw [hrec] at h
                  simp only [] at h
                  injection h with h
                  exact h ▸ ih _ _ hrec
                | ok res =>
                  rw [hrec] at h
                  simp only [] at h
                  by_cases hstage : info.accessStage = Operation.task
                  · rw [if_pos hstage] at h
                    exact absurd h (by simp)
                  · rw [if_neg hstage] at h
                    by_cases hstage2 : info.accessStage = Operation.transfer
                    · rw [if_pos hstage2] at h
                      exact absurd h (by simp)
                    · rw [if_neg hstage2] at h
                      exact absurd h (by simp)
    | none =>
      rw [hfind] at h
      simp only [] at h
      exact ih _ e h

theorem checkDataDependency_error_kinds (s : JobState) (rs : List Res) (σ : Operation)
    (fl : List AccessTypeFlags) (e : JobError)
    (h : checkDataDependency s rs σ fl = .error e) :
    e = .accessCountMismatch ∨ e = .unsupportedResourceType ∨ e = .unsupportedOperation := by
  unfold checkDataDependency at h
  by_cases hauto : s.autoDataDependencyManagement = false
  · rw [if_pos hauto] at h
    exact absurd h (by simp)
  · rw [if_neg hauto] at h
    by_cases hlen : rs.length ≠ fl.length
    · rw [if_pos hlen] at h
      injection h with h
      exact Or.inl h.symm
    · rw [if_neg hlen] at h
      cases hdep : depLoop σ ((buildUniqueResources (rs.zip fl)).map (·.2))
          s.unguardedResourceAccess with
      | error e' =>
        rw [hdep] at h
        simp only [] at h
        injection h with h
        exact Or.inr (h ▸ depLoop_error_kinds σ _ _ _ hdep)
      | ok res =>
        rw [hdep] at h
        simp only [] at h
        cases hstage : mapStage σ with
        | error e' =>
          rw [hstage] at h
          simp only [] at h
          injection h with h
          exact Or.inr (Or.inr (h ▸ mapStage_error _ _ hstage))
        | ok dstStage =>
          rw [hstage] at h
          simp only [] at h
          exact absurd h (by simp)

theorem gatherPendingAccess_error_eq (af : List (List AccessTypeFlags)) :
    ∀ (l : List (Nat × Binding)) (e : JobError),
      gatherPendingAccess af l = .error e → e = .layoutMismatch := by
  intro l
  induction l with
  | nil =>
    intro e h
    simp [gatherPendingAccess] at h
  | cons hd tl ih =>
    intro e h
    obtain ⟨pos, b⟩ := hd
    simp only [gatherPendingAccess] at h
    by_cases hbad : pos ≥ af.length ∨ (Binding.resources b).length > (af.getD pos []).length
    · rw [if_pos hbad] at h
      injection h with h
      exact h.symm
    · rw [if_neg hbad] at h
      cases hrest : gatherPendingAccess af tl with
      | error e' =>
        rw [hrest] at h
        simp only [] at h
        injection h with h
        exact h ▸ ih _ hrest
      | ok tail =>
        rw [hrest] at h
        simp only [] at h
        exact absurd h (by simp)

theorem gatherPendingAccess_layoutMismatch_iff (af : List (List AccessTypeFlags)) :
    ∀ (l : List (Nat × Binding)),
      gatherPendingAccess af l = .error .layoutMismatch ↔ ∃ pb ∈ l, badBinding af pb := by
  intro l
  induction l with
  | nil =>
    simp [gatherPendingAccess]
  | cons hd tl ih =>
    obtain ⟨pos, b⟩ := hd
    simp only [gatherPendingAccess]
    by_cases hbad : pos ≥ af.length ∨ (Binding.resources b).length > (af.getD pos []).length
    · rw [if_pos hbad]
      constructor
      · intro _
        exact ⟨(pos, b), List.mem_cons_self _ _, hbad⟩
      · intro _
        rfl
    · rw [if_neg hbad]
      have hbadne : ¬badBinding af (pos, b) := hbad
      cases hrest : gatherPendingAccess af tl with
      | error e' =>
        have he' : e' = .layoutMismatch := gatherPendingAccess_error_eq af tl e' hrest
        subst he'
        constructor
        · intro _
          obtain ⟨pb, hmem, hpb⟩ := ih.mp hrest
          exact ⟨pb, List.mem_cons_of_mem _ hmem, hpb⟩
        · intro _
          rfl
      | ok tail =>
        constructor
        · intro hc
          exact absurd hc (by simp)
        · intro hc
          obtain ⟨pb, hmem, hpb⟩ := hc
          rcases List.mem_cons.mp hmem with hmem | hmem
          · subst hmem
            exact absurd hpb hbadne
          · have hcontra := ih.mpr ⟨pb, hmem, hpb⟩
            rw [hrest] at hcontra
            exact absurd hcontra (by simp)

/-- C5 (amended): with auto-dependency on, a dispatch fails with
LayoutMismatch exactly when some pending binding has a set index outside the
reflected layout or supplies MORE resources than the set has reflected
bindings; supplying fewer resources (over-short) is accepted. -/
theorem addTask_layoutMismatch_iff (s : JobState) (task : TaskModel) (x y z : Nat)
    (hauto : s.autoDataDependencyManagement = true) :
    addTask s task x y z = .error .layoutMismatch ↔
      ∃ pb ∈ s.pendingBindings, badBinding task.resourceAccessFlags pb := by
  unfold addTask checkDataDependencyInPendingBindings
  rw [if_neg (by rw [hauto]; exact fun hc => Bool.noConfusion hc)]
  cases hg : gatherPendingAccess task.resourceAccessFlags s.pendingBindings with
  | error e =>
    have he : e = .layoutMismatch := gatherPendingAccess_error_eq _ _ _ hg
    subst he
    constructor
    · intro _
      exact (gatherPendingAccess_layoutMismatch_iff _ _).mp hg
    · intro _
      rfl
  | ok g =>
    simp only []
    cases hc : checkDataDependency s g.1 Operation.task g.2 with
    | error e =>
      constructor
      · intro hlm
        have hlm2 : Except.error (α := JobState) e = Except.error JobError.layoutMismatch := hlm
        injection hlm2 with hlm2
        rcases checkDataDependency_error_kinds s g.1 Operation.task g.2 e hc with h | h | h <;>
          simp [h] at hlm2
      · intro hex
        have hcontra := (gatherPendingAccess_layoutMismatch_iff _ _).mpr hex
        rw [hg] at hcontra
        exact absurd hcontra (by simp)
    | ok s1 =>
      constructor
      · intro hlm
        exact absurd hlm (by simp)
      · intro hex
        have hcontra := (gatherPendingAccess_layoutMismatch_iff _ _).mpr hex
        rw [hg] at hcontra
        exact absurd hcontra (by simp)

/-- Counterexample for C5 as stated: an over-short binding (one resource for
a reflected set of two bindings) is NOT rejected; the dispatch records
successfully instead of failing with LayoutMismatch. -/
theorem overshort_binding_accepted :
    overshortState.autoDataDependencyManagement = true ∧
    (Binding.resources (Binding.resourceList [Res.buf witBuf])).length = 1 ∧
    (overshortTask.resourceAccessFlags.getD 0 []).length = 2 ∧
    (addTask overshortState overshortTask 1 1 1).isOk = true ∧
    addTask overshortState overshortTask 1 1 1 ≠ .error .layoutMismatch := by
  refine ⟨rfl, rfl, rfl, by decide, by decide⟩

/-- Witness for C5 (amended): an over-long binding (two resources for a
reflected set of one binding) fails with LayoutMismatch. -/
theorem addTask_layoutMismatch_iff_witness :
    addTask overlongState witTask 1 1 1 = .error .layoutMismatch :=
  (addTask_layoutMismatch_iff overlongState witTask 1 1 1 rfl).mpr
    ⟨(0, Binding.resourceList [Res.buf witBuf, Res.buf witStagingBuf]),
      List.mem_cons_self _ _, by decide⟩

theorem bindPendingRun_eq_coalesceGo :
    ∀ (l : List (Nat × Binding)) (first cnt : Nat), 0 < cnt →
      bindPendingRun l first cnt =
        (coalesceGo (l.map (·.1)) first cnt).map
          (fun fc => Cmd.bindDescriptorSets fc.1 fc.2) := by
  intro l
  induction l with
  | nil =>
    intro first cnt hcnt
    simp only [bindPendingRun, List.map_nil, coalesceGo, List.map_cons]
    rw [if_pos hcnt]
  | cons hd tl ih =>
    intro first cnt hcnt
    obtain ⟨pos, b⟩ := hd
    simp only [bindPendingRun, List.map_cons, coalesceGo]
    by_cases hne : pos ≠ first + cnt
    · rw [if_pos hne, if_pos hne, ih pos 1 (by omega)]
      rfl
    · rw [if_neg hne, if_neg hne, ih first (cnt + 1) (by omega)]

theorem bindPendingResources_eq (s : JobState) :
    bindPendingResources s = { s with
      commands := s.commands
        ++ (coalesceRuns (s.pendingBindings.map (·.1))).map
            (fun fc => Cmd.bindDescriptorSets fc.1 fc.2)
        ++ (match s.pendingConstants with
            | some sz => [Cmd.pushConsts sz]
            | Option.none => [])
      pendingBindings := []
      pendingConstants := Option.none } := by
  unfold bindPendingResources
  cases hpb : s.pendingBindings with
  | nil =>
    simp only [coalesceRuns, List.map_nil, bindPendingRun]
    rfl
  | cons hd rest =>
    obtain ⟨k, b⟩ := hd
    simp only [coalesceRuns, List.map_cons, bindPendingRun]
    rw [if_neg (by omega)]
    rw [bindPendingRun_eq_coalesceGo rest k 1 (by omega)]

theorem checkDataDependency_frame (s : JobState) (rs : List Res) (σ : Operation)
    (fl : List AccessTypeFlags) (s₁ : JobState)
    (h : checkDataDependency s rs σ fl = .ok s₁) :
    s₁.pendingBindings = s.pendingBindings ∧
    s₁.pendingConstants = s.pendingConstants ∧
    s₁.preExecutionTransfers = s.preExecutionTransfers ∧
    s₁.postExecutionTransfers = s.postExecutionTransfers ∧
    s₁.imageLayouts = s.imageLayouts ∧
    s₁.isRecorded = s.isRecorded ∧
    s₁.isSubmitted = s.isSubmitted ∧
    s₁.autoDataDependencyManagement = s.autoDataDependencyManagement ∧
    s₁.hostWrites = s.hostWrites ∧
    s₁.hostReads = s.hostReads ∧
    s₁.submitCount = s.submitCount ∧
    ∃ newCmds, s₁.commands = s.commands ++ newCmds ∧
      ∀ c ∈ newCmds, Cmd.isPipeBarrier c = true := by
  unfold checkDataDependency at h
  by_cases hauto : s.autoDataDependencyManagement = false
  · rw [if_pos hauto] at h
    have hs := Except.ok.inj h
    subst hs
    refine ⟨rfl, rfl, rfl, rfl, rfl, rfl, rfl, rfl, rfl, rfl, rfl, [], by simp, by simp⟩
  · rw [if_neg hauto] at h
    by_cases hlen : rs.length ≠ fl.length
    · rw [if_pos hlen] at h
      exact absurd h (by simp)
    · rw [if_neg hlen] at h
      cases hdep : depLoop σ ((buildUniqueResources (rs.zip fl)).map (·.2))
          s.unguardedResourceAccess with
      | error e =>
        rw [hdep] at h
        simp at h
      | ok res =>
        rw [hdep] at h
        simp only [] at h
        cases hstage : mapStage σ with
        | error e =>
          rw [hstage] at h
          simp at h
        | ok dstStage =>
          rw [hstage] at h
          simp only [] at h
          have hs := Except.ok.inj h
          rw [← hs]
          refine ⟨rfl, rfl, rfl, rfl, rfl, rfl, rfl, rfl, rfl, rfl, rfl, _,
            by rw [List.append_assoc], ?_⟩
          intro c hc
          rcases List.mem_append.mp hc with hc | hc
          · by_cases hif : res.1 ≠ []
            · rw [if_pos hif] at hc
              simp only [List.mem_singleton] at hc
              subst hc
              rfl
            · rw [if_neg hif] at hc
              exact absurd hc (List.not_mem_nil c)
          · by_cases hif : res.2.1 ≠ []
            · rw [if_pos hif] at hc
              simp only [List.mem_singleton] at hc
              subst hc
              rfl
            · rw [if_neg hif] at hc
              exact absurd hc (List.not_mem_nil c)

theorem checkDataDependencyInPendingBindings_frame (s : JobState) (task : TaskModel)
    (s₁ : JobState) (h : checkDataDependencyInPendingBindings s task = .ok s₁) :
    s₁.pendingBindings = s.pendingBindings ∧
    s₁.pendingConstants = s.pendingConstants ∧
    ∃ newCmds, s₁.commands = s.commands ++ newCmds ∧
      ∀ c ∈ newCmds, Cmd.isPipeBarrier c = true := by
  unfold checkDataDependencyInPendingBindings at h
  by_cases hauto : s.autoDataDependencyManagement = false
  · rw [if_pos hauto] at h
    have hs := Except.ok.inj h
    subst hs
    exact ⟨rfl, rfl, [], by simp, by simp⟩
  · rw [if_neg hauto] at h
    cases hg : gatherPendingAccess task.resourceAccessFlags s.pendingBindings with
    | error e =>
      rw [hg] at h
      simp at h
    | ok g =>
      rw [hg] at h
      simp only [] at h
      obtain ⟨h1, h2, _, _, _, _, _, _, _, _, _, hcmds⟩ :=
        checkDataDependency_frame s g.1 Operation.task g.2 s₁ h
      exact ⟨h1, h2, hcmds⟩

/-- C6: for every successful dispatch, the bindDescriptorSets commands
recorded by it are exactly one call per maximal run of consecutive set
indices in the pending-bindings map (walked in ascending order), each call
carrying the first set index and the length of its run; in particular the
key sets {0,1,2} and {0,2} coalesce into one call (0,3) and two calls
(0,1), (2,1) respectively. -/
theorem addTask_coalesces_descriptor_sets (s : JobState) (task : TaskModel)
    (x y z : Nat) (s' : JobState) (h : addTask s task x y z = .ok s') :
    (s'.commands.drop s.commands.length).filter Cmd.isBindDS =
      (coalesceRuns (s.pendingBindings.map (·.1))).map
        (fun fc => Cmd.bindDescriptorSets fc.1 fc.2) ∧
    coalesceRuns [0, 1, 2] = [(0, 3)] ∧
    coalesceRuns [0, 2] = [(0, 1), (2, 1)] := by
  refine ⟨?_, by decide, by decide⟩
  unfold addTask at h
  cases hc : checkDataDependencyInPendingBindings s task with
  | error e =>
    rw [hc] at h
    simp at h
  | ok s₁ =>
    rw [hc] at h
    simp only [] at h
    obtain ⟨hpb, hpc, bs, hcmds, hbs⟩ :=
      checkDataDependencyInPendingBindings_frame s task s₁ hc
    have hs := Except.ok.inj h
    rw [← hs]
    simp only [recordCmd, bindPendingResources_eq, hpb, hpc, hcmds]
    rw [show s.commands ++ bs ++ [Cmd.bindPipeline task.pipelineId]
        ++ (coalesceRuns (s.pendingBindings.map (·.1))).map
            (fun fc => Cmd.bindDescriptorSets fc.1 fc.2)
        ++ (match s.pendingConstants with
            | some sz => [Cmd.pushConsts sz]
            | Option.none => [])
        ++ [Cmd.dispatch x y z] =
      s.commands ++ (bs ++ [Cmd.bindPipeline task.pipelineId]
        ++ (coalesceRuns (s.pendingBindings.map (·.1))).map
            (fun fc => Cmd.bindDescriptorSets fc.1 fc.2)
        ++ ((match s.pendingConstants with
            | some sz => [Cmd.pushConsts sz]
            | Option.none => [])
        ++ [Cmd.dispatch x y z])) from by simp [List.append_assoc]]
    rw [List.drop_left]
    rw [List.filter_append, List.filter_append, List.filter_append]
    rw [List.filter_eq_nil_iff.mpr (fun c hcm => by
      have := hbs c hcm
      cases c <;> simp_all [Cmd.isPipeBarrier, Cmd.isBindDS])]
    rw [show List.filter Cmd.isBindDS [Cmd.bindPipeline task.pipelineId] = [] from rfl]
    rw [List.filter_eq_self.mpr (fun c hcm => by
      obtain ⟨fc, _, hfc⟩ := List.mem_map.mp hcm
      rw [← hfc]
      rfl)]
    have hlast : List.filter Cmd.isBindDS
        ((match s.pendingConstants with
          | some sz => [Cmd.pushConsts sz]
          | Option.none => []) ++ [Cmd.dispatch x y z]) = [] := by
      cases s.pendingConstants <;> rfl
    rw [hlast]
    simp

/-- Witness for C6: binding sets {0,2} and dispatching emits exactly two
bindDescriptorSets calls, (firstSet 0, count 1) and (firstSet 2, count 1). -/
theorem addTask_coalesces_descriptor_sets_witness :
    addTask coalesceState witTask 1 1 1 = .ok coalesceResult ∧
    (coalesceResult.commands.drop coalesceState.commands.length).filter Cmd.isBindDS =
      [Cmd.bindDescriptorSets 0 1, Cmd.bindDescriptorSets 2 1] := by
  refine ⟨by decide, ?_⟩
  have hmain := addTask_coalesces_descriptor_sets coalesceState witTask 1 1 1
    coalesceResult (by decide)
  rw [hmain.1]
  decide

theorem managerTransition_table (imageId : Nat) (oldLayout newLayout : VkImageLayout) :
    managerTransitionImageLayout imageId oldLayout newLayout =
      match layoutSrcSpec oldLayout, layoutDstSpec newLayout with
      | some si, some di =>
        .ok (si.2, di.2,
          { oldLayout := oldLayout, newLayout := newLayout,
            srcAccessMask := si.1, dstAccessMask := di.1, imageId := imageId })
      | _, _ => .error .unsupportedLayoutTransition := by
  cases oldLayout <;> cases newLayout <;> rfl

/-- C8 (amended): transitionImageLayout is a no-op when the tracked layout
already equals the requested one; otherwise it emits exactly one image-memory
barrier whose source masks come from the current layout and destination masks
from the new layout per the table (with PresentSrcKHR as an additional
accepted new layout: dstAccess 0, stage BottomOfPipe) and updates the tracked
layout; any transition whose old or new layout is outside the table fails
with UnsupportedLayoutTransition. -/
theorem transitionImageLayout_table (s : JobState) (image : ImageRes)
    (newLayout : VkImageLayout) :
    (imageLayoutOf s image = newLayout → transitionImageLayout s image newLayout = .ok s) ∧
    (imageLayoutOf s image ≠ newLayout →
      match layoutSrcSpec (imageLayoutOf s image), layoutDstSpec newLayout with
      | some si, some di =>
        transitionImageLayout s image newLayout = .ok { s with
          commands := s.commands ++ [Cmd.pipelineBarrier si.2 di.2 [] []
            [{ oldLayout := imageLayoutOf s image, newLayout := newLayout,
               srcAccessMask := si.1, dstAccessMask := di.1, imageId := image.id }]]
          imageLayouts := mapInsertOrAssign image.id newLayout s.imageLayouts }
      | _, _ =>
        transitionImageLayout s image newLayout = .error .unsupportedLayoutTransition) := by
  constructor
  · intro heq
    unfold transitionImageLayout
    rw [if_pos heq]
  · intro hne
    cases hsrc : layoutSrcSpec (imageLayoutOf s image) with
    | some si =>
      cases hdst : layoutDstSpec newLayout with
      | some di =>
        simp only []
        unfold transitionImageLayout
        rw [if_neg hne, managerTransition_table, hsrc, hdst]
      | none =>
        simp only []
        unfold transitionImageLayout
        rw [if_neg hne, managerTransition_table, hsrc, hdst]
    | none =>
      simp only []
      unfold transitionImageLayout
      rw [if_neg hne, managerTransition_table, hsrc]

/-- Witness for C8: transitioning the witness image from General to
TransferDst emits one barrier (srcAccess ShaderWrite from ComputeShader,
dstAccess TransferWrite to Transfer) and updates the tracked layout. -/
theorem transitionImageLayout_table_witness :
    imageLayoutOf initialJob witImg = VkImageLayout.general ∧
    transitionImageLayout initialJob witImg VkImageLayout.transferDstOptimal =
      .ok { initialJob with
        commands := [Cmd.pipelineBarrier VK_PIPELINE_STAGE_COMPUTE_SHADER_BIT
          VK_PIPELINE_STAGE_TRANSFER_BIT [] []
          [{ oldLayout := VkImageLayout.general,
             newLayout := VkImageLayout.transferDstOptimal,
             srcAccessMask := VK_ACCESS_SHADER_WRITE_BIT,
             dstAccessMask := VK_ACCESS_TRANSFER_WRITE_BIT, imageId := 3 }]]
        imageLayouts := [(3, VkImageLayout.transferDstOptimal)] } := by
  refine ⟨rfl, ?_⟩
  have hmain := (transitionImageLayout_table initialJob witImg
    VkImageLayout.transferDstOptimal).2 (by decide)
  exact hmain

/-- Counterexample for C8 as stated: a transition to PresentSrcKHR, a new
layout outside the table of the claim, does NOT fail with
UnsupportedLayoutTransition: the code accepts it with dstAccess 0 and
destination stage BottomOfPipe. -/
theorem transition_to_presentSrc_accepted :
    transitionImageLayout presentState witImg VkImageLayout.presentSrcKHR ≠
      .error .unsupportedLayoutTransition ∧
    transitionImageLayout presentState witImg VkImageLayout.presentSrcKHR =
      .ok { presentState with
        commands := [Cmd.pipelineBarrier VK_PIPELINE_STAGE_COMPUTE_SHADER_BIT
          VK_PIPELINE_STAGE_BOTTOM_OF_PIPE_BIT [] []
          [{ oldLayout := VkImageLayout.general,
             newLayout := VkImageLayout.presentSrcKHR,
             srcAccessMask := VK_ACCESS_SHADER_WRITE_BIT,
             dstAccessMask := 0, imageId := 3 }]]
        imageLayouts := [(3, VkImageLayout.presentSrcKHR)] } := by
  refine ⟨by decide, by decide⟩

theorem noTrackerEffect_refl (s : JobState) : noTrackerEffect s s :=
  ⟨rfl, [], by simp, by simp⟩

theorem noTrackerEffect_trans {s s₁ s₂ : JobState}
    (h1 : noTrackerEffect s s₁) (h2 : noTrackerEffect s₁ s₂) : noTrackerEffect s s₂ := by
  obtain ⟨hu1, l1, hc1, hb1⟩ := h1
  obtain ⟨hu2, l2, hc2, hb2⟩ := h2
  refine ⟨hu2.trans hu1, l1 ++ l2, ?_, ?_⟩
  · rw [hc2, hc1, List.append_assoc]
  · intro c hc
    rcases List.mem_append.mp hc with hc | hc
    · exact hb1 c hc
    · exact hb2 c hc

theorem noTrackerEffect_recordCmd (s : JobState) (c : Cmd)
    (hc : Cmd.hasBufferBarriers c = false) : noTrackerEffect s (recordCmd s c) := by
  refine ⟨rfl, [c], rfl, ?_⟩
  intro c' hc'
  simp only [List.mem_singleton] at hc'
  subst hc'
  exact hc

theorem transitionImageLayout_noTracker (s : JobState) (image : ImageRes)
    (newLayout : VkImageLayout) (s' : JobState)
    (h : transitionImageLayout s image newLayout = .ok s') : noTrackerEffect s s' := by
  unfold transitionImageLayout at h
  by_cases heq : imageLayoutOf s image = newLayout
  · rw [if_pos heq] at h
    have := Except.ok.inj h
    subst this
    exact noTrackerEffect_refl s
  · rw [if_neg heq] at h
    cases ht : managerTransitionImageLayout image.id (imageLayoutOf s image) newLayout with
    | error e =>
      rw [ht] at h
      simp at h
    | ok t =>
      rw [ht] at h
      simp only [] at h
      have := Except.ok.inj h
      rw [← this]
      exact ⟨rfl, [Cmd.pipelineBarrier t.1 t.2.1 [] [] [t.2.2]], rfl, by simp [Cmd.hasBufferBarriers]⟩

theorem bindPendingRun_no_barriers :
    ∀ (l : List (Nat × Binding)) (a b : Nat), ∀ c ∈ bindPendingRun l a b,
      Cmd.hasBufferBarriers c = false := by
  intro l
  induction l with
  | nil =>
    intro a b c hc
    simp only [bindPendingRun] at hc
    by_cases hb : b > 0
    · rw [if_pos hb] at hc
      simp only [List.mem_singleton] at hc
      subst hc
      rfl
    · rw [if_neg hb] at hc
      exact absurd hc (List.not_mem_nil c)
  | cons hd tl ih =>
    intro a b c hc
    obtain ⟨pos, bd⟩ := hd
    simp only [bindPendingRun] at hc
    by_cases hne : pos ≠ a + b
    · rw [if_pos hne] at hc
      rcases List.mem_cons.mp hc with hc | hc
      · subst hc
        rfl
      · exact ih pos 1 c hc
    · rw [if_neg hne] at hc
      exact ih a (b + 1) c hc

theorem pcCmds_no_barriers (o : Option Nat) :
    ∀ c ∈ (match o with
      | some sz => [Cmd.pushConsts sz]
      | Option.none => ([] : List Cmd)), Cmd.hasBufferBarriers c = false := by
  cases o with
  | some sz =>
    intro c hc
    simp only [List.mem_singleton] at hc
    subst hc
    rfl
  | none =>
    intro c hc
    exact absurd hc (List.not_mem_nil c)

theorem bindPendingResources_noTracker (s : JobState) :
    noTrackerEffect s (bindPendingResources s) := by
  rw [bindPendingResources_eq]
  refine ⟨rfl, (coalesceRuns (s.pendingBindings.map (·.1))).map
      (fun fc => Cmd.bindDescriptorSets fc.1 fc.2)
    ++ (match s.pendingConstants with
        | some sz => [Cmd.pushConsts sz]
        | Option.none => []), by rw [List.append_assoc], ?_⟩
  intro c hc
  rcases List.mem_append.mp hc with hc | hc
  · obtain ⟨fc, _, hfc⟩ := List.mem_map.mp hc
    rw [← hfc]
    rfl
  · exact pcCmds_no_barriers s.pendingConstants c hc

theorem checkDataDependency_autoOff (s : JobState)
    (hauto : s.autoDataDependencyManagement = false) (rs : List Res) (σ : Operation)
    (fl : List AccessTypeFlags) : checkDataDependency s rs σ fl = .ok s := by
  unfold checkDataDependency
  rw [if_pos hauto]

theorem checkDataDependencySingle_autoOff (s : JobState)
    (hauto : s.autoDataDependencyManagement = false) (rs : List Res) (σ : Operation)
    (f : AccessTypeFlags) : checkDataDependencySingle s rs σ f = .ok s :=
  checkDataDependency_autoOff s hauto rs σ _

theorem checkDataDependencyInPendingBindings_autoOff (s : JobState)
    (hauto : s.autoDataDependencyManagement = false) (task : TaskModel) :
    checkDataDependencyInPendingBindings s task = .ok s := by
  unfold checkDataDependencyInPendingBindings
  rw [if_pos hauto]

/-- C10: with autoDataDependencyManagement off, the dependency entry points
are identities (the unguarded map is neither read nor written and the
binding-shape validation is skipped), every dispatch succeeds regardless of
how the pending bindings relate to the reflected layout, and none of addTask
and the sync operations emits a buffer-memory barrier command. -/
theorem autoOff_skips_dependency_processing
    (s : JobState) (task : TaskModel) (rs : List Res) (σ : Operation)
    (fl : List AccessTypeFlags) (r r2 : Res) (data : Option Nat) (sz x y z : Nat)
    (hauto : s.autoDataDependencyManagement = false) :
    checkDataDependency s rs σ fl = .ok s ∧
    checkDataDependencyInPendingBindings s task = .ok s ∧
    (∃ s', addTask s task x y z = .ok s' ∧ noTrackerEffect s s') ∧
    (∀ s', syncResourceToDevice s r data sz = .ok s' → noTrackerEffect s s') ∧
    (∀ s', syncResourceToHost s r data sz = .ok s' → noTrackerEffect s s') ∧
    (∀ s', syncResources s r r2 = .ok s' → noTrackerEffect s s') := by
  refine ⟨checkDataDependency_autoOff s hauto rs σ fl,
    checkDataDependencyInPendingBindings_autoOff s hauto task, ?_, ?_, ?_, ?_⟩
  · refine ⟨recordCmd (bindPendingResources (recordCmd s (Cmd.bindPipeline task.pipelineId)))
      (Cmd.dispatch x y z), ?_, ?_⟩
    · unfold addTask
      rw [checkDataDependencyInPendingBindings_autoOff s hauto task]
    · have h1 := noTrackerEffect_recordCmd s (Cmd.bindPipeline task.pipelineId) rfl
      have h2 := bindPendingResources_noTracker (recordCmd s (Cmd.bindPipeline task.pipelineId))
      have h3 := noTrackerEffect_recordCmd
        (bindPendingResources (recordCmd s (Cmd.bindPipeline task.pipelineId)))
        (Cmd.dispatch x y z) rfl
      exact noTrackerEffect_trans (noTrackerEffect_trans h1 h2) h3
  · intro s' h
    unfold syncResourceToDevice at h
    cases r with
    | buf buffer =>
      simp only [] at h
      cases hbt : buffer.bufferType with
      | deviceLocal =>
        rw [hbt] at h
        simp only [] at h
        rw [checkDataDependencySingle_autoOff
          { s with preExecutionTransfers := s.preExecutionTransfers ++
              [{ deviceBufferId := buffer.stagingId, size := min sz buffer.size, host := data,
                 destroyAfterTransfer := false }] }
          hauto [Res.buf buffer] Operation.transfer AccessType.write] at h
        simp only [] at h
        have hs := Except.ok.inj h
        rw [← hs]
        have hstep0 : noTrackerEffect s
            { s with preExecutionTransfers := s.preExecutionTransfers ++
                [{ deviceBufferId := buffer.stagingId, size := min sz buffer.size, host := data,
                   destroyAfterTransfer := false }] } :=
          ⟨rfl, [], by simp, by simp⟩
        exact noTrackerEffect_trans hstep0 (noTrackerEffect_recordCmd _
          (Cmd.copyBuffer buffer.stagingId buffer.id (min sz buffer.size)) rfl)
      | staging =>
        rw [hbt] at h
        simp only [] at h
        have hs := Except.ok.inj h
        rw [← hs]
        exact ⟨rfl, [], by simp, by simp⟩
      | uniform =>
        rw [hbt] at h
        simp only [] at h
        have hs := Except.ok.inj h
        rw [← hs]
        exact ⟨rfl, [], by simp, by simp⟩
    | img image =>
      simp only [] at h
      cases data with
      | none =>
        exact transitionImageLayout_noTracker _ _ _ _ h
      | some d =>
        simp only [] at h
        by_cases hsz : sz ≠ image.size
        · rw [if_pos hsz] at h
          exact absurd h (by simp)
        · rw [if_neg hsz] at h
          cases ht1 : transitionImageLayout
              { s with preExecutionTransfers := s.preExecutionTransfers ++
                [{ deviceBufferId := image.stagingId, size := sz, host := some d,
                   destroyAfterTransfer := false }] }
              image VkImageLayout.transferDstOptimal with
          | error e =>
            rw [ht1] at h
            simp at h
          | ok s₁ =>
            rw [ht1] at h
            simp only [] at h
            have hstep1 : noTrackerEffect s { s with preExecutionTransfers :=
                s.preExecutionTransfers ++
                  [{ deviceBufferId := image.stagingId, size := sz, host := some d,
                     destroyAfterTransfer := false }] } :=
              ⟨rfl, [], by simp, by simp⟩
            have hstep2 := transitionImageLayout_noTracker _ _ _ _ ht1
            have hstep3 := noTrackerEffect_recordCmd s₁
              (Cmd.copyBufferToImage image.stagingId image.id image.width image.height) rfl
            have hstep4 := transitionImageLayout_noTracker _ _ _ _ h
            exact noTrackerEffect_trans
              (noTrackerEffect_trans (noTrackerEffect_trans hstep1 hstep2) hstep3) hstep4
  · intro s' h
    unfold syncResourceToHost at h
    cases r with
    | buf buffer =>
      simp only [] at h
      by_cases hbt : buffer.bufferType = BufferType.deviceLocal
      · rw [if_pos hbt] at h
        rw [checkDataDependencySingle_autoOff s hauto [Res.buf buffer] Operation.transfer
          AccessType.read] at h
        simp only [] at h
        have hs := Except.ok.inj h
        rw [← hs]
        exact noTrackerEffect_trans (noTrackerEffect_recordCmd s
          (Cmd.copyBuffer buffer.id buffer.stagingId (min sz buffer.size)) rfl)
          ⟨rfl, [], by simp, by simp⟩
      · rw [if_neg hbt] at h
        have hs := Except.ok.inj h
        rw [← hs]
        exact ⟨rfl, [], by simp, by simp⟩
    | img image =>
      simp only [] at h
      by_cases hsz : sz < image.size
      · rw [if_pos hsz] at h
        exact absurd h (by simp)
      · rw [if_neg hsz] at h
        cases ht1 : transitionImageLayout s image VkImageLayout.transferSrcOptimal with
        | error e =>
          rw [ht1] at h
          simp at h
        | ok s₁ =>
          rw [ht1] at h
          simp only [] at h
          cases ht2 : transitionImageLayout
              (recordCmd s₁ (Cmd.copyImageToBuffer image.stagingId image.id
                image.width image.height)) image VkImageLayout.general with
          | error e =>
            rw [ht2] at h
            simp at h
          | ok s₂ =>
            rw [ht2] at h
            simp only [] at h
            have := Except.ok.inj h
            rw [← this]
            have hstep1 := transitionImageLayout_noTracker _ _ _ _ ht1
            have hstep2 := noTrackerEffect_recordCmd s₁
              (Cmd.copyImageToBuffer image.stagingId image.id image.width image.height) rfl
            have hstep3 := transitionImageLayout_noTracker _ _ _ _ ht2
            have hstep4 : noTrackerEffect s₂ { s₂ with postExecutionTransfers :=
                s₂.postExecutionTransfers ++
                  [{ deviceBufferId := image.stagingId, size := image.size, host := data,
                     destroyAfterTransfer := false }] } :=
              ⟨rfl, [], by simp, by simp⟩
            exact noTrackerEffect_trans
              (noTrackerEffect_trans (noTrackerEffect_trans hstep1 hstep2) hstep3) hstep4
  · intro s' h
    unfold syncResources at h
    cases r with
    | buf srcBuffer =>
      cases r2 with
      | buf dstBuffer =>
        simp only [] at h
        rw [checkDataDependency_autoOff s hauto [Res.buf srcBuffer, Res.buf dstBuffer]
          Operation.transfer [AccessType.read, AccessType.write]] at h
        simp only [] at h
        have hs := Except.ok.inj h
        rw [← hs]
        exact noTrackerEffect_recordCmd s (Cmd.copyBuffer srcBuffer.id dstBuffer.id
          (min srcBuffer.size dstBuffer.size)) rfl
      | img i =>
        simp at h
    | img srcImg =>
      cases r2 with
      | buf b =>
        simp at h
      | img dstImg =>
        simp only [] at h
        cases ht1 : transitionImageLayout s srcImg VkImageLayout.transferSrcOptimal with
        | error e =>
          rw [ht1] at h
          simp at h
        | ok s₁ =>
          rw [ht1] at h
          simp only [] at h
          cases ht2 : transitionImageLayout s₁ dstImg VkImageLayout.transferDstOptimal with
          | error e =>
            rw [ht2] at h
            simp at h
          | ok s₂ =>
            rw [ht2] at h
            simp only [] at h
            cases ht3 : transitionImageLayout
                (recordCmd s₂ (Cmd.copyImageToImage srcImg.id dstImg.id
                  (min srcImg.width dstImg.width) (min srcImg.height dstImg.height)))
                srcImg VkImageLayout.general with
            | error e =>
              rw [ht3] at h
              simp at h
            | ok s₃ =>
              rw [ht3] at h
              simp only [] at h
              have hstep1 := transitionImageLayout_noTracker _ _ _ _ ht1
              have hstep2 := transitionImageLayout_noTracker _ _ _ _ ht2
              have hstep3 := noTrackerEffect_recordCmd s₂
                (Cmd.copyImageToImage srcImg.id dstImg.id
                  (min srcImg.width dstImg.width) (min srcImg.height dstImg.height)) rfl
              have hstep4 := transitionImageLayout_noTracker _ _ _ _ ht3
              have hstep5 := transitionImageLayout_noTracker _ _ _ _ h
              exact noTrackerEffect_trans (noTrackerEffect_trans
                (noTrackerEffect_trans (noTrackerEffect_trans hstep1 hstep2) hstep3)
                hstep4) hstep5

/-- Witness for C10: with the tracker off, a dispatch whose bindings exceed
the reflected layout (two resources for a one-binding set) succeeds. -/
theorem autoOff_skips_dependency_processing_witness :
    autoOffState.autoDataDependencyManagement = false ∧
    (addTask autoOffState witTask 1 1 1).isOk = true := by
  refine ⟨rfl, ?_⟩
  obtain ⟨_, _, ⟨s', hok, _⟩, _, _, _⟩ := autoOff_skips_dependency_processing
    autoOffState witTask [] Operation.task [] (Res.buf witBuf) (Res.buf witBuf)
    Option.none 0 1 1 1 rfl
  rw [hok]
  rfl

end GPUJob
